import Mathlib

/-!
Verification development for the meshcore-hub collector core: a shallow
embedding of the event-hash utilities (`common/hash_utils.py`), the LetsMesh
packet decoder bridge (`collector/letsmesh_decoder.py`), the event normalizer
and dispatch orchestrator (`collector/subscriber.py`), and retention cleanup
(`collector/cleanup.py`), together with theorems settling the spec claims.

Python dynamic values are modelled by the inductive `PyVal`; Python `dict`s
are insertion-ordered association lists with unique keys; Python `float`s are
modelled as rationals (exact for every value the claims touch); functions
that can raise return `Except`/`Option`.
-/

/-- Model of a Python JSON-ish dynamic value (`Any`).  Python `bool` is kept
separate from `int` but note `isinstance(True, int)` holds in Python, which the
parse helpers below reproduce.  Floats are modelled as rationals. -/
inductive PyVal where
  | none
  | bool (b : Bool)
  | int (n : Int)
  | float (q : Rat)
  | str (s : String)
  | list (xs : List PyVal)
  | dict (entries : List (String × PyVal))

/-- A Python dict: insertion-ordered association list with unique keys. -/
abbrev PyDict := List (String × PyVal)

/-- Python truthiness (`bool(value)`): `None`, `False`, `0`, `0.0`, `""`,
`[]` and `{}` are falsy, everything else truthy. -/
def pyTruthy : PyVal → Bool
  | .none => false
  | .bool b => b
  | .int n => n != 0
  | .float q => q != 0
  | .str s => !(s = "")
  | .list xs => !xs.isEmpty
  | .dict d => !d.isEmpty

/-- Python `a or b` (value-returning, by truthiness). -/
def pyOr (a b : PyVal) : PyVal := if pyTruthy a then a else b

/-- `d.get(k)`: `None` both when the key is absent and when it maps to `None`. -/
def pyGet (d : PyDict) (k : String) : PyVal := (List.lookup k d).getD PyVal.none

/-- `k in d`. -/
def pyContains (d : PyDict) (k : String) : Bool := (List.lookup k d).isSome

/-- `d[k] = v`: update in place when present (keeping position), else append. -/
def pySet (d : PyDict) (k : String) (v : PyVal) : PyDict :=
  if pyContains d k then d.map (fun e => if e.1 = k then (k, v) else e)
  else d ++ [(k, v)]

/-- `d.pop(k, None)`: remove the key if present. -/
def pyPop (d : PyDict) (k : String) : PyDict := d.filter (fun e => !(e.1 = k))

/-- `d.get(k)` restricted to dict values: the common
`x = d.get(k); if not isinstance(x, dict): return None` navigation step. -/
def pyGetDict (d : PyDict) (k : String) : Option PyDict :=
  match pyGet d k with
  | .dict e => some e
  | _ => Option.none

/-- Render an optional int as a stored Python value (`None` when absent). -/
def optIntVal : Option Int → PyVal
  | some n => .int n
  | Option.none => .none

/-- Python `str.strip()` (whitespace trimming; ASCII whitespace only).
Implemented on the character list so that closed terms reduce in the kernel. -/
def pyStrip (s : String) : String :=
  String.mk (((s.data.dropWhile Char.isWhitespace).reverse.dropWhile Char.isWhitespace).reverse)

/-- Python `str.upper()` (ASCII case mapping). -/
def pyUpper (s : String) : String := String.mk (s.data.map Char.toUpper)

/-- Python `str.lower()` (ASCII case mapping). -/
def pyLower (s : String) : String := String.mk (s.data.map Char.toLower)

/-- Python `str.startswith(p)`. -/
def pyStartsWith (s p : String) : Bool := p.data.isPrefixOf s.data

/-- Python `len(s)` (counts code points, as Lean chars do). -/
def pyLen (s : String) : Nat := s.data.length

/-- Fuelled worker for `pySplitOn` (fuel bounds the scan so the recursion is
structural and closed terms reduce in the kernel). -/
def splitOnFuel (sep : List Char) : Nat → List Char → List Char → List (List Char)
  | 0, l, acc => [acc.reverse ++ l]
  | _ + 1, [], acc => [acc.reverse]
  | fuel + 1, c :: rest, acc =>
    if sep.isPrefixOf (c :: rest) then
      acc.reverse :: splitOnFuel sep fuel ((c :: rest).drop sep.length) []
    else splitOnFuel sep fuel rest (c :: acc)

/-- Python `s.split(sep)` for a non-empty separator (`[s]` when the separator
is empty, matching the guarded call sites). -/
def pySplitOn (s sep : String) : List String :=
  if sep = "" then [s]
  else (splitOnFuel sep.data s.data.length s.data []).map String.mk

/-- Python `str.lstrip()` (ASCII whitespace). -/
def pyLStrip (s : String) : String := String.mk (s.data.dropWhile Char.isWhitespace)

/-- Python `str.removeprefix(p)`. -/
def removePfx (s p : String) : String :=
  if pyStartsWith s p then String.mk (s.data.drop p.data.length) else s

/-- Python `s[:n]` on strings (slicing counts code points, as Lean chars do). -/
def pyTake (s : String) (n : Nat) : String := String.mk (s.data.take n)

/-- Python `sub in s` substring containment. -/
def pyInStr (sub s : String) : Bool :=
  if sub = "" then true else !((pySplitOn s sub).length = 1)

/-- Python `str.split(sep, 1)`: split at the first occurrence only. -/
def splitOnce (s sep : String) : String × String :=
  match pySplitOn s sep with
  | [] => (s, "")
  | x :: rest => (x, String.intercalate sep rest)

/-- Characters of `string.hexdigits`. -/
def isHexDigitChar (c : Char) : Bool :=
  c.isDigit || ('a' ≤ c && c ≤ 'f') || ('A' ≤ c && c ≤ 'F')

/-- Characters of the literal `"0123456789ABCDEF"`. -/
def isHexUpperChar (c : Char) : Bool := c.isDigit || ('A' ≤ c && c ≤ 'F')

/-- `LetsMeshPacketDecoder._is_hex`: non-empty and all `string.hexdigits`. -/
def is_hex (s : String) : Bool := !(s = "") && s.data.all isHexDigitChar

/-- Decimal digits to a natural number. -/
def digitsToNat (cs : List Char) : Nat :=
  cs.foldl (fun a c => a * 10 + (c.toNat - '0'.toNat)) 0

/-- Python `int(s)` for strings: optional surrounding whitespace, optional
sign, decimal digits (underscore separators and other exotic forms are not
modelled; no claim depends on them). -/
def pyParseIntStr (s : String) : Option Int :=
  let t := (pyStrip s).data
  let signRest : Int × List Char :=
    match t with
    | '-' :: cs => (-1, cs)
    | '+' :: cs => (1, cs)
    | cs => (1, cs)
  if signRest.2.isEmpty then Option.none
  else if signRest.2.all Char.isDigit then
    some (signRest.1 * (digitsToNat signRest.2 : Int))
  else Option.none

/-- Truncation toward zero, Python `int(float)`. -/
def ratTrunc (q : Rat) : Int :=
  if q < 0 then -(((-q.num).toNat / q.den : Nat) : Int)
  else ((q.num.toNat / q.den : Nat) : Int)

/-- Mantissa of a Python float literal (`digits`, `digits.digits`,
`.digits`, `digits.`), without sign. -/
def parseMantissa (m : String) : Option Rat :=
  match pySplitOn m "." with
  | [i] =>
    if !i.data.isEmpty && i.data.all Char.isDigit then some ((digitsToNat i.data : Int) : Rat)
    else Option.none
  | [i, f] =>
    if (i.data ++ f.data).isEmpty then Option.none
    else if (i.data ++ f.data).all Char.isDigit then
      some (((digitsToNat i.data * 10 ^ f.data.length + digitsToNat f.data : Int) : Rat)
        / ((10 ^ f.data.length : Int) : Rat))
    else Option.none
  | _ => Option.none

/-- Signed mantissa. -/
def parseSignedMantissa (m : String) : Option Rat :=
  match m.data with
  | '-' :: cs => (parseMantissa (String.mk cs)).map (fun q => -q)
  | '+' :: cs => parseMantissa (String.mk cs)
  | _ => parseMantissa m

/-- Signed decimal exponent. -/
def parseSignedExp (e : String) : Option Int :=
  match e.data with
  | '-' :: cs =>
    if !cs.isEmpty && cs.all Char.isDigit then some (-(digitsToNat cs : Int)) else Option.none
  | '+' :: cs =>
    if !cs.isEmpty && cs.all Char.isDigit then some (digitsToNat cs : Int) else Option.none
  | cs =>
    if !cs.isEmpty && cs.all Char.isDigit then some (digitsToNat cs : Int) else Option.none

/-- Ten to a (possibly negative) integer power, as a rational. -/
def ratPow10 (e : Int) : Rat :=
  if 0 ≤ e then ((10 ^ e.toNat : Int) : Rat) else 1 / ((10 ^ (-e).toNat : Int) : Rat)

/-- Python `float(s)` for strings: sign, decimal mantissa, optional exponent
(`inf`/`nan` and underscores are not modelled; no claim depends on them). -/
def pyParseFloatStr (s : String) : Option Rat :=
  let t := pyLower (pyStrip s)
  match pySplitOn t "e" with
  | [m] => parseSignedMantissa m
  | [m, e] =>
    match parseSignedMantissa m, parseSignedExp e with
    | some mv, some ev => some (mv * ratPow10 ev)
    | _, _ => Option.none
  | _ => Option.none

/-! ## Byte-level hashing (`hashlib.md5`, `hashlib.sha256`) -/

/-- UTF-8 encoding of one character. -/
def charUtf8 (c : Char) : List Nat :=
  let n := c.toNat
  if n < 128 then [n]
  else if n < 2048 then [192 + n / 64, 128 + n % 64]
  else if n < 65536 then [224 + n / 4096, 128 + (n / 64) % 64, 128 + n % 64]
  else [240 + n / 262144, 128 + (n / 4096) % 64, 128 + (n / 64) % 64, 128 + n % 64]

/-- `s.encode("utf-8")` as a list of byte values. -/
def utf8Bytes (s : String) : List Nat := (s.data.map charUtf8).flatten

/-- Reduce to a 32-bit word. -/
def u32 (n : Nat) : Nat := n % 4294967296

/-- 32-bit left rotation. -/
def rotl32 (x s : Nat) : Nat := u32 ((x <<< s) ||| (x >>> (32 - s)))

/-- 32-bit right rotation. -/
def rotr32 (x s : Nat) : Nat := u32 ((x >>> s) ||| (x <<< (32 - s)))

/-- 32-bit bitwise complement (for values below `2^32`). -/
def not32 (x : Nat) : Nat := 4294967295 - x

/-- Worker for `chunksOf64`: `cur` is the current chunk (reversed) and `k`
the remaining capacity of the current chunk. -/
def chunksGo (cur : List α) (k : Nat) : List α → List (List α)
  | [] => if cur.isEmpty then [] else [cur.reverse]
  | a :: rest =>
    match k with
    | 0 => cur.reverse :: chunksGo [a] 63 rest
    | k + 1 => chunksGo (a :: cur) k rest

/-- Split a list into chunks of 64 elements (inputs here are always exact
multiples of 64 bytes). -/
def chunksOf64 (l : List α) : List (List α) := chunksGo [] 64 l

/-- Little-endian 32-bit words of a byte list. -/
def leWords : List Nat → List Nat
  | b0 :: b1 :: b2 :: b3 :: rest =>
    (b0 + b1 * 256 + b2 * 65536 + b3 * 16777216) :: leWords rest
  | _ => []

/-- Big-endian 32-bit words of a byte list. -/
def beWords : List Nat → List Nat
  | b0 :: b1 :: b2 :: b3 :: rest =>
    (b3 + b2 * 256 + b1 * 65536 + b0 * 16777216) :: beWords rest
  | _ => []

/-- `n` bytes of a number, little-endian. -/
def leBytes : Nat → Nat → List Nat
  | 0, _ => []
  | k + 1, v => v % 256 :: leBytes k (v / 256)

/-- `n` bytes of a number, big-endian. -/
def beBytes (k v : Nat) : List Nat := (leBytes k v).reverse

/-- Lowercase hex digit. -/
def hexDigitLower (n : Nat) : Char :=
  if n < 10 then Char.ofNat ('0'.toNat + n) else Char.ofNat ('a'.toNat + n - 10)

/-- Uppercase hex digit. -/
def hexDigitUpper (n : Nat) : Char :=
  if n < 10 then Char.ofNat ('0'.toNat + n) else Char.ofNat ('A'.toNat + n - 10)

/-- Two lowercase hex characters of a byte. -/
def byteHexLower (b : Nat) : List Char := [hexDigitLower (b / 16), hexDigitLower (b % 16)]

/-- Two uppercase hex characters of a byte. -/
def byteHexUpper (b : Nat) : List Char := [hexDigitUpper (b / 16), hexDigitUpper (b % 16)]

/-- `bytes.hex()`: lowercase hex string of a byte list. -/
def bytesHexLower (bs : List Nat) : String := String.mk ((bs.map byteHexLower).flatten)

/-- Merkle-Damgard padding shared by MD5 (little-endian length) and SHA-256
(big-endian length): append `0x80`, zero-pad to 56 mod 64, append the 8-byte
bit length. -/
def mdPad (lenBytes : Nat → List Nat) (msg : List Nat) : List Nat :=
  let ml := msg.length
  let zeros := (119 - ml % 64) % 64
  msg ++ [128] ++ List.replicate zeros 0 ++ lenBytes (8 * ml)

/-- MD5 per-round constants `K`. -/
def md5K : List Nat :=
  [3614090360, 3905402710, 606105819, 3250441966, 4118548399, 1200080426,
   2821735955, 4249261313, 1770035416, 2336552879, 4294925233, 2304563134,
   1804603682, 4254626195, 2792965006, 1236535329, 4129170786, 3225465664,
   643717713, 3921069994, 3593408605, 38016083, 3634488961, 3889429448,
   568446438, 3275163606, 4107603335, 1163531501, 2850285829, 4243563512,
   1735328473, 2368359562, 4294588738, 2272392833, 1839030562, 4259657740,
   2763975236, 1272893353, 4139469664, 3200236656, 681279174, 3936430074,
   3572445317, 76029189, 3654602809, 3873151461, 530742520, 3299628645,
   4096336452, 1126891415, 2878612391, 4237533241, 1700485571, 2399980690,
   4293915773, 2240044497, 1873313359, 4264355552, 2734768916, 1309151649,
   4149444226, 3174756917, 718787259, 3951481745]

/-- MD5 per-round shift amounts. -/
def md5S : List Nat :=
  [7, 12, 17, 22, 7, 12, 17, 22, 7, 12, 17, 22, 7, 12, 17, 22,
   5, 9, 14, 20, 5, 9, 14, 20, 5, 9, 14, 20, 5, 9, 14, 20,
   4, 11, 16, 23, 4, 11, 16, 23, 4, 11, 16, 23, 4, 11, 16, 23,
   6, 10, 15, 21, 6, 10, 15, 21, 6, 10, 15, 21, 6, 10, 15, 21]

/-- One MD5 round on state `(a, b, c, d)` with message words `m`. -/
def md5Round (m : List Nat) (st : Nat × Nat × Nat × Nat) (i : Nat) :
    Nat × Nat × Nat × Nat :=
  let (a, b, c, d) := st
  let fg : Nat × Nat :=
    if i < 16 then ((b &&& c) ||| (not32 b &&& d), i)
    else if i < 32 then ((d &&& b) ||| (not32 d &&& c), (5 * i + 1) % 16)
    else if i < 48 then (b ^^^ c ^^^ d, (3 * i + 5) % 16)
    else (u32 (c ^^^ (b ||| not32 d)), (7 * i) % 16)
  let f := u32 (fg.1 + a + md5K.getD i 0 + m.getD fg.2 0)
  (d, u32 (b + rotl32 f (md5S.getD i 0)), b, c)

/-- MD5 compression of one 64-byte chunk. -/
def md5Chunk (st : Nat × Nat × Nat × Nat) (chunk : List Nat) :
    Nat × Nat × Nat × Nat :=
  let m := leWords chunk
  let r := (List.range 64).foldl (md5Round m) st
  (u32 (st.1 + r.1), u32 (st.2.1 + r.2.1), u32 (st.2.2.1 + r.2.2.1),
   u32 (st.2.2.2 + r.2.2.2))

/-- MD5 digest bytes of a byte list. -/
def md5Bytes (msg : List Nat) : List Nat :=
  let padded := mdPad (leBytes 8) msg
  let st := (chunksOf64 padded).foldl md5Chunk
    (1732584193, 4023233417, 2562383102, 271733878)
  leBytes 4 st.1 ++ leBytes 4 st.2.1 ++ leBytes 4 st.2.2.1 ++ leBytes 4 st.2.2.2

/-- `hashlib.md5(s.encode("utf-8")).hexdigest()`. -/
def md5hex (s : String) : String := bytesHexLower (md5Bytes (utf8Bytes s))

/-- SHA-256 round constants `K`. -/
def sha256K : List Nat :=
  [1116352408, 1899447441, 3049323471, 3921009573, 961987163, 1508970993,
   2453635748, 2870763221, 3624381080, 310598401, 607225278, 1426881987,
   1925078388, 2162078206, 2614888103, 3248222580, 3835390401, 4022224774,
   264347078, 604807628, 770255983, 1249150122, 1555081692, 1996064986,
   2554220882, 2821834349, 2952996808, 3210313671, 3336571891, 3584528711,
   113926993, 338241895, 666307205, 773529912, 1294757372, 1396182291,
   1695183700, 1986661051, 2177026350, 2456956037, 2730485921, 2820302411,
   3259730800, 3345764771, 3516065817, 3600352804, 4094571909, 275423344,
   430227734, 506948616, 659060556, 883997877, 958139571, 1322822218,
   1537002063, 1747873779, 1955562222, 2024104815, 2227730452, 2361852424,
   2428436474, 2756734187, 3204031479, 3329325298]

/-- SHA-256 message-schedule extension step. -/
def sha256Extend (w : List Nat) (i : Nat) : List Nat :=
  let w15 := w.getD (i - 15) 0
  let w2 := w.getD (i - 2) 0
  let s0 := rotr32 w15 7 ^^^ rotr32 w15 18 ^^^ (w15 >>> 3)
  let s1 := rotr32 w2 17 ^^^ rotr32 w2 19 ^^^ (w2 >>> 10)
  w ++ [u32 (w.getD (i - 16) 0 + s0 + w.getD (i - 7) 0 + s1)]

/-- One SHA-256 round. -/
def sha256Round (w : List Nat)
    (st : Nat × Nat × Nat × Nat × Nat × Nat × Nat × Nat) (i : Nat) :
    Nat × Nat × Nat × Nat × Nat × Nat × Nat × Nat :=
  let (a, b, c, d, e, f, g, h) := st
  let s1 := rotr32 e 6 ^^^ rotr32 e 11 ^^^ rotr32 e 25
  let ch := (e &&& f) ^^^ (not32 e &&& g)
  let t1 := u32 (h + s1 + ch + sha256K.getD i 0 + w.getD i 0)
  let s0 := rotr32 a 2 ^^^ rotr32 a 13 ^^^ rotr32 a 22
  let maj := (a &&& b) ^^^ (a &&& c) ^^^ (b &&& c)
  let t2 := u32 (s0 + maj)
  (u32 (t1 + t2), a, b, c, u32 (d + t1), e, f, g)

/-- SHA-256 compression of one 64-byte chunk. -/
def sha256Chunk (st : Nat × Nat × Nat × Nat × Nat × Nat × Nat × Nat)
    (chunk : List Nat) : Nat × Nat × Nat × Nat × Nat × Nat × Nat × Nat :=
  let w0 := beWords chunk
  let w := (List.range 64).foldl
    (fun acc i => if i < 16 then acc else sha256Extend acc i) w0
  let r := (List.range 64).foldl (sha256Round w) st
  (u32 (st.1 + r.1), u32 (st.2.1 + r.2.1), u32 (st.2.2.1 + r.2.2.1),
   u32 (st.2.2.2.1 + r.2.2.2.1), u32 (st.2.2.2.2.1 + r.2.2.2.2.1),
   u32 (st.2.2.2.2.2.1 + r.2.2.2.2.2.1),
   u32 (st.2.2.2.2.2.2.1 + r.2.2.2.2.2.2.1),
   u32 (st.2.2.2.2.2.2.2 + r.2.2.2.2.2.2.2))

/-- SHA-256 digest bytes of a byte list. -/
def sha256Bytes (msg : List Nat) : List Nat :=
  let padded := mdPad (beBytes 8) msg
  let st := (chunksOf64 padded).foldl sha256Chunk
    (1779033703, 3144134277, 1013904242, 2773480762, 1359893119, 2600822924,
     528734635, 1541459225)
  beBytes 4 st.1 ++ beBytes 4 st.2.1 ++ beBytes 4 st.2.2.1 ++
  beBytes 4 st.2.2.2.1 ++ beBytes 4 st.2.2.2.2.1 ++ beBytes 4 st.2.2.2.2.2.1 ++
  beBytes 4 st.2.2.2.2.2.2.1 ++ beBytes 4 st.2.2.2.2.2.2.2

set_option maxRecDepth 4096

/-- Known-answer check: MD5 of the empty message. -/
theorem md5hex_empty : md5hex "" = "d41d8cd98f00b204e9800998ecf8427e" := by decide

/-- Known-answer check: MD5 of "abc". -/
theorem md5hex_abc : md5hex "abc" = "900150983cd24fb0d6963f7d28e17f72" := by decide

/-- Known-answer check: SHA-256 of the empty message. -/
theorem sha256_empty :
    bytesHexLower (sha256Bytes []) =
      "e3b0c44298fc1c149afbf4c8996fb92427ae41e4649b934ca495991b7852b855" := by decide

/-! ## `meshcore_hub/common/hash_utils.py` -/

/-- Model of a Python `datetime`: `epoch` is `int(dt.timestamp())` (truncated
POSIX seconds) and `iso` is `dt.isoformat()`.  `datetime` objects are always
truthy. -/
structure PyDatetime where
  epoch : Int
  iso : String

/-- Python `a or b` for strings (truthiness on emptiness). -/
def pyOrStr (a b : String) : String := if a = "" then b else a

/-- Python `"|".join(parts)`. -/
def joinPipe (parts : List String) : String := String.intercalate "|" parts

/-- `compute_message_hash`: md5 of the canonical delimiter-joined string of
the five identifying fields, absent optionals contributing empty tokens. -/
def compute_message_hash (text : String) (pubkey_pfx : Option String := Option.none)
    (channel_idx : Option Int := Option.none)
    (sender_timestamp : Option PyDatetime := Option.none)
    (txt_type : Option Int := Option.none) : String :=
  let parts : List String :=
    [pyOrStr text "",
     pyOrStr (pubkey_pfx.getD "") "",
     match channel_idx with
     | some n => toString n
     | Option.none => "",
     match sender_timestamp with
     | some dt => dt.iso
     | Option.none => "",
     match txt_type with
     | some n => toString n
     | Option.none => ""]
  md5hex (joinPipe parts)

/-- The floor-divided time-bucket token: `str((epoch // (m*60)) * (m*60))` for
a present timestamp, `""` for an absent one (Python `//` floors, `Int.fdiv`). -/
def timeBucketToken (received_at : Option PyDatetime) (bucket_minutes : Int) : String :=
  match received_at with
  | some dt =>
    let bucket_seconds := bucket_minutes * 60
    toString (Int.fdiv dt.epoch bucket_seconds * bucket_seconds)
  | Option.none => ""

/-- `compute_advertisement_hash`: md5 of public key, name, type, flags and
the time-bucket token. -/
def compute_advertisement_hash (public_key : String) (name : Option String := Option.none)
    (adv_type : Option String := Option.none) (flags : Option Int := Option.none)
    (received_at : Option PyDatetime := Option.none) (bucket_minutes : Int := 5) : String :=
  let parts : List String :=
    [public_key,
     pyOrStr (name.getD "") "",
     pyOrStr (adv_type.getD "") "",
     match flags with
     | some n => toString n
     | Option.none => "",
     timeBucketToken received_at bucket_minutes]
  md5hex (joinPipe parts)

/-- `compute_trace_hash`. -/
def compute_trace_hash (initiator_tag : Int) : String := md5hex (toString initiator_tag)

/-- Python `repr` of a string: single quotes, backslash and quote escaped
(non-printable escaping is not modelled; no claim depends on it). -/
def pyReprStr (s : String) : String :=
  "'" ++ String.mk (s.data.flatMap fun c =>
    if c = '\\' then ['\\', '\\'] else if c = '\'' then ['\\', '\''] else [c]) ++ "'"

/-- Rendering of a float under `repr`; Python renders shortest round-trip
decimals, approximated here by the rational's decimal/ratio form (no claim
inspects this rendering). -/
def pyFloatRepr (q : Rat) : String := toString q

mutual

/-- Python `repr` of a value (used by `str(sorted_items)`). -/
def pyRepr : PyVal → String
  | .none => "None"
  | .bool true => "True"
  | .bool false => "False"
  | .int n => toString n
  | .float q => pyFloatRepr q
  | .str s => pyReprStr s
  | .list xs => "[" ++ joinCommaList xs ++ "]"
  | .dict d => "\x7b" ++ joinCommaDict d ++ "\x7d"

/-- Comma-joined reprs of list elements. -/
def joinCommaList : List PyVal → String
  | [] => ""
  | [v] => pyRepr v
  | v :: rest => pyRepr v ++ ", " ++ joinCommaList rest

/-- Comma-joined reprs of dict items. -/
def joinCommaDict : List (String × PyVal) → String
  | [] => ""
  | [(k, v)] => pyReprStr k ++ ": " ++ pyRepr v
  | (k, v) :: rest => pyReprStr k ++ ": " ++ pyRepr v ++ ", " ++ joinCommaDict rest

end

/-- Insert into a key-sorted item list (Python `sorted` on pairs compares the
string key first; dict keys are unique so the key decides). -/
def insertSortedItem (e : String × PyVal) : List (String × PyVal) → List (String × PyVal)
  | [] => [e]
  | f :: rest => if e.1 ≤ f.1 then e :: f :: rest else f :: insertSortedItem e rest

/-- Python `sorted(d.items())`. -/
def sortedItems (d : PyDict) : List (String × PyVal) :=
  d.foldr insertSortedItem []

/-- Python `str(sorted(d.items()))`: the repr of a list of 2-tuples. -/
def strOfSortedItems (items : List (String × PyVal)) : String :=
  "[" ++ String.intercalate ", "
    (items.map fun e => "(" ++ pyReprStr e.1 ++ ", " ++ pyRepr e.2 ++ ")") ++ "]"

/-- `compute_telemetry_hash`: md5 of public key, deterministic serialization
of `parsed_data` (empty for falsy `parsed_data`, i.e. `None` or `{}`), and
the time-bucket token. -/
def compute_telemetry_hash (node_public_key : String)
    (parsed_data : Option PyDict := Option.none)
    (received_at : Option PyDatetime := Option.none) (bucket_minutes : Int := 5) : String :=
  let data_str : String :=
    match parsed_data with
    | some d => if d.isEmpty then "" else strOfSortedItems (sortedItems d)
    | Option.none => ""
  md5hex (joinPipe [node_public_key, data_str, timeBucketToken received_at bucket_minutes])

/-! ## `meshcore_hub/collector/letsmesh_decoder.py` -/

/-- Value of one hex character. -/
def hexCharVal (c : Char) : Nat :=
  if c.isDigit then c.toNat - '0'.toNat
  else if 'a' ≤ c && c ≤ 'f' then c.toNat - 'a'.toNat + 10
  else c.toNat - 'A'.toNat + 10

/-- Pair up hex characters into bytes; `none` on an odd count or a non-hex
character (the `ValueError` cases of `bytes.fromhex`). -/
def hexPairs : List Char → Option (List Nat)
  | [] => some []
  | [_] => Option.none
  | c1 :: c2 :: rest =>
    if isHexDigitChar c1 && isHexDigitChar c2 then
      (hexPairs rest).map fun bs => (16 * hexCharVal c1 + hexCharVal c2) :: bs
    else Option.none

/-- Python `bytes.fromhex` (ASCII spaces between bytes are not modelled; every
input here has already passed the decoder's hex check). -/
def bytesFromHex (s : String) : Option (List Nat) := hexPairs s.data

/-- `LetsMeshPacketDecoder._compute_channel_hash`: first byte of the SHA-256
digest of the raw key bytes, as two uppercase hex characters.  `bytes.fromhex`
raises `ValueError` on an odd-length hex string, modelled as `Except.error`. -/
def compute_channel_hash (key_hex : String) : Except String String :=
  match bytesFromHex key_hex with
  | some bs => .ok (String.mk (byteHexUpper ((sha256Bytes bs).getD 0 0)))
  | Option.none => .error "non-hexadecimal number found in fromhex() arg"

/-- `LetsMeshPacketDecoder.ChannelKey`. -/
structure ChannelKey where
  label : Option String
  key_hex : String
  channel_hash : String
deriving DecidableEq

/-- One iteration of the separator loop in `_normalize_channel_entry`: split
at the first `sep`, normalize the right side, and accept it when it is hex. -/
def tryChannelSeparator (candidate sep : String) : Option (String × String) :=
  if pyInStr sep candidate then
    let lr := splitOnce candidate sep
    let right := pyStrip lr.2
    let right := pyStrip (removePfx (removePfx right "0x") "0X")
    if !(right = "") && is_hex right then
      some (String.mk ((pyStrip lr.1).data.dropWhile (fun c => c = '#')), right)
    else Option.none
  else Option.none

/-- `LetsMeshPacketDecoder._normalize_channel_entry`: parse one configured
entry (`label=hex`, `label:hex`, or bare `hex`); `ok none` models returning
`None` for a malformed entry, `error` models the `ValueError` raised by
`bytes.fromhex` inside `_compute_channel_hash` on an odd-length hex key. -/
def normalize_channel_entry (value : Option String) : Except String (Option ChannelKey) :=
  match value with
  | Option.none => .ok Option.none
  | some v =>
    let candidate := pyStrip v
    if candidate = "" then .ok Option.none
    else
      let sepResult : Option String × String :=
        match tryChannelSeparator candidate "=" with
        | some lr => (some lr.1, lr.2)
        | Option.none =>
          match tryChannelSeparator candidate ":" with
          | some lr => (some lr.1, lr.2)
          | Option.none => (Option.none, candidate)
      let key_candidate := pyStrip sepResult.2
      let key_candidate := pyStrip (removePfx (removePfx key_candidate "0x") "0X")
      if key_candidate = "" || !(is_hex key_candidate) then .ok Option.none
      else
        match compute_channel_hash (pyUpper key_candidate) with
        | .error e => .error e
        | .ok channel_hash =>
          let normalized_label : Option String :=
            match sepResult.1 with
            | some l => if pyStrip l = "" then Option.none else some (pyStrip l)
            | Option.none => Option.none
          .ok (some ⟨normalized_label, pyUpper key_candidate, channel_hash⟩)

/-- `LetsMeshPacketDecoder.BUILTIN_CHANNEL_KEYS`. -/
def BUILTIN_CHANNEL_KEYS : List (String × String) :=
  [("Public", "8B3387E9C5CDEA6AC9E5EDBAA115CD72"),
   ("test", "9CD8FCF22A47333B591D96A2B848B73F")]

/-- The shared loop body of `_normalize_channel_keys`: fold entries into the
accumulated list, skipping malformed entries and already-seen `key_hex`
values, propagating the `ValueError` of `_compute_channel_hash`. -/
def channelKeyFold : List ChannelKey → List String → List String →
    Except String (List ChannelKey × List String)
  | acc, seen, [] => .ok (acc, seen)
  | acc, seen, v :: rest =>
    match normalize_channel_entry (some v) with
    | .error e => .error e
    | .ok Option.none => channelKeyFold acc seen rest
    | .ok (some entry) =>
      if entry.key_hex ∈ seen then channelKeyFold acc seen rest
      else channelKeyFold (acc ++ [entry]) (seen ++ [entry.key_hex]) rest

/-- `LetsMeshPacketDecoder._normalize_channel_keys`: built-in keys (as their
`label=hex` strings) are processed first, then the configured values, with
one shared seen-set (the source's two identical loops over one shared
accumulator are folded into one pass over the concatenated list). -/
def normalize_channel_keys (values : List String) : Except String (List ChannelKey) :=
  (channelKeyFold [] [] ((BUILTIN_CHANNEL_KEYS.map fun lk => lk.1 ++ "=" ++ lk.2) ++ values)).map
    Prod.fst

/-- The decode cache: raw-hex key to cached decode result (a decode may
legitimately yield nothing, and that `none` outcome is cached too). -/
abbrev DecodeCache := List (String × Option PyDict)

/-- `LetsMeshPacketDecoder._decode_cache_maxsize`. -/
def decode_cache_maxsize : Nat := 2048

/-- `LetsMeshPacketDecoder.decode_payload`: extract the `raw` hex field,
serve a cached result (including a cached `None`), otherwise decode via the
external command (`decodeRaw`, the pure model of the subprocess call), insert,
and drop the earliest-inserted entry when the cache exceeds its maximum. -/
def decode_payload (decodeRaw : String → Option PyDict) (cache : DecodeCache)
    (payload : PyDict) : Option PyDict × DecodeCache :=
  match pyGet payload "raw" with
  | .str raw_hex =>
    let clean_hex := pyStrip raw_hex
    if clean_hex = "" then (Option.none, cache)
    else
      match List.lookup clean_hex cache with
      | some cached => (cached, cache)
      | Option.none =>
        let decoded := decodeRaw clean_hex
        let cache' := cache ++ [(clean_hex, decoded)]
        if decode_cache_maxsize < cache'.length then (decoded, cache'.tail)
        else (decoded, cache')
  | _ => (Option.none, cache)

/-- `LetsMeshPacketDecoder.channel_name_from_decoded`: resolve a channel
label from the decoded payload's channel hash against the configured labels
(`names` models `_channel_names_by_hash`). -/
def channel_name_from_decoded (names : List (String × String))
    (decoded_packet : Option PyDict) : Option String :=
  match decoded_packet with
  | Option.none => Option.none
  | some dp =>
    match pyGetDict dp "payload" with
    | Option.none => Option.none
    | some payload =>
      match pyGetDict payload "decoded" with
      | Option.none => Option.none
      | some decoded =>
        match pyGet decoded "channelHash" with
        | .str channel_hash => List.lookup (pyUpper channel_hash) names
        | _ => Option.none

/-! ## `meshcore_hub/collector/subscriber.py`: parse and extract helpers -/

/-- `Subscriber._parse_int`: parse int-like values safely (Python `bool` is
an `int`, floats truncate toward zero, bad strings give `None`). -/
def parse_int : PyVal → Option Int
  | .none => Option.none
  | .bool b => some (if b then 1 else 0)
  | .int n => some n
  | .float q => some (ratTrunc q)
  | .str s => pyParseIntStr s
  | _ => Option.none

/-- `Subscriber._parse_float`. -/
def parse_float : PyVal → Option Rat
  | .none => Option.none
  | .bool b => some (if b then 1 else 0)
  | .int n => some (n : Rat)
  | .float q => some q
  | .str s => pyParseFloatStr s
  | _ => Option.none

/-- `Subscriber._parse_path_length`: list length, or packed-hex byte count,
or `_parse_int` on anything else. -/
def parse_path_length : PyVal → Option Int
  | .none => Option.none
  | .list xs => some (xs.length : Int)
  | .str s =>
    let path := pyStrip s
    if path = "" then Option.none
    else if pyLen path % 2 = 0 then some ((pyLen path / 2 : Nat) : Int)
    else some (pyLen path : Int)
  | v => parse_int v

/-- `Subscriber._parse_sender_timestamp`: `int`/`float` values truncate,
strings go through `int(float(s))`. -/
def parse_sender_timestamp (payload : PyDict) : Option Int :=
  match pyGet payload "sender_timestamp" with
  | .int n => some n
  | .float q => some (ratTrunc q)
  | .bool b => some (if b then 1 else 0)
  | .str s =>
    match pyParseFloatStr s with
    | some q => some (ratTrunc q)
    | Option.none => Option.none
  | _ => Option.none

/-- The direct-key pass of `Subscriber._extract_letsmesh_text`: first
non-blank string value among the text-bearing keys, stripped. -/
def firstTextKey : List String → PyDict → Option String
  | [], _ => Option.none
  | k :: rest, entries =>
    match pyGet entries k with
    | .str s => if pyStrip s = "" then firstTextKey rest entries else some (pyStrip s)
    | _ => firstTextKey rest entries

/-- `Subscriber._extract_letsmesh_text`: recursive search over the keys
`text`/`message`/`msg`/`body`/`content`, then over nested dict values with
one less depth; at depth 0 the nested recursion (Python depth -1) yields
nothing. -/
def extract_letsmesh_text : Nat → PyDict → Option String
  | 0, entries => firstTextKey ["text", "message", "msg", "body", "content"] entries
  | d + 1, entries =>
    match firstTextKey ["text", "message", "msg", "body", "content"] entries with
    | some t => some t
    | Option.none =>
      (entries.map Prod.snd).findSome? fun v =>
        match v with
        | .dict nested =>
          match extract_letsmesh_text d nested with
          | some t => if t = "" then Option.none else some t
          | Option.none => Option.none
        | _ => Option.none

/-- `Subscriber._extract_letsmesh_decoder_text`: the depth-3 text search over
the decoded packet's `payload` object. -/
def extract_letsmesh_decoder_text (decoded_packet : Option PyDict) : Option String :=
  match decoded_packet with
  | Option.none => Option.none
  | some dp =>
    match pyGetDict dp "payload" with
    | some payload => extract_letsmesh_text 3 payload
    | Option.none => Option.none

/-- `Subscriber._extract_letsmesh_decoder_sender_timestamp`. -/
def extract_letsmesh_decoder_sender_timestamp (decoded_packet : Option PyDict) :
    Option Int :=
  match decoded_packet with
  | Option.none => Option.none
  | some dp =>
    match pyGetDict dp "payload" with
    | Option.none => Option.none
    | some payload =>
      match pyGetDict payload "decoded" with
      | Option.none => Option.none
      | some decoded =>
        match pyGetDict decoded "decrypted" with
        | Option.none => Option.none
        | some decrypted => parse_int (pyGet decrypted "timestamp")

/-- `Subscriber._extract_letsmesh_decoder_sender`: decrypted sender, falling
back to the decoded source hash (only when `decrypted` is a dict); the
`packet_type` parameter is accepted and unused, as in the source. -/
def extract_letsmesh_decoder_sender (decoded_packet : Option PyDict)
    (_packet_type : Option Int) : Option String :=
  match decoded_packet with
  | Option.none => Option.none
  | some dp =>
    match pyGetDict dp "payload" with
    | Option.none => Option.none
    | some payload =>
      match pyGetDict payload "decoded" with
      | Option.none => Option.none
      | some decoded =>
        match pyGetDict decoded "decrypted" with
        | Option.none => Option.none
        | some decrypted =>
          match pyGet decrypted "sender" with
          | .str s =>
            if pyStrip s = "" then
              match pyGet decoded "sourceHash" with
              | .str sh => if pyStrip sh = "" then Option.none else some (pyStrip sh)
              | _ => Option.none
            else some (pyStrip s)
          | _ =>
            match pyGet decoded "sourceHash" with
            | .str sh => if pyStrip sh = "" then Option.none else some (pyStrip sh)
            | _ => Option.none

/-- `Subscriber._extract_letsmesh_decoder_payload`: the decoded packet's
`payload.decoded` object. -/
def extract_letsmesh_decoder_payload (decoded_packet : Option PyDict) : Option PyDict :=
  match decoded_packet with
  | Option.none => Option.none
  | some dp =>
    match pyGetDict dp "payload" with
    | Option.none => Option.none
    | some payload => pyGetDict payload "decoded"

/-- `Subscriber._extract_letsmesh_decoder_payload_type`: top-level
`payloadType`, else `payload.decoded.type` (a falsy, i.e. empty, decoded
object yields nothing). -/
def extract_letsmesh_decoder_payload_type (decoded_packet : Option PyDict) : Option Int :=
  match decoded_packet with
  | Option.none => Option.none
  | some dp =>
    match parse_int (pyGet dp "payloadType") with
    | some t => some t
    | Option.none =>
      match extract_letsmesh_decoder_payload (some dp) with
      | some decoded =>
        if decoded.isEmpty then Option.none else parse_int (pyGet decoded "type")
      | Option.none => Option.none

/-- `Subscriber._resolve_letsmesh_packet_type`: the source payload's
`packet_type` field, with the decoder's payload type as fallback. -/
def resolve_letsmesh_packet_type (payload : PyDict) (decoded_packet : Option PyDict) :
    Option Int :=
  match parse_int (pyGet payload "packet_type") with
  | some t => some t
  | Option.none => extract_letsmesh_decoder_payload_type decoded_packet

/-- `Subscriber._extract_letsmesh_sender_from_payload`: first non-blank
string among the sender-like payload fields. -/
def extract_letsmesh_sender_from_payload (payload : PyDict) : Option String :=
  firstSenderKey ["pubkey_prefix", "sourceHash", "source_hash", "source",
    "sender", "from", "src"] payload
where
  firstSenderKey : List String → PyDict → Option String
    | [], _ => Option.none
    | k :: rest, entries =>
      match pyGet entries k with
      | .str s => if pyStrip s = "" then firstSenderKey rest entries else some (pyStrip s)
      | _ => firstSenderKey rest entries

/-- `Subscriber._extract_letsmesh_decoder_txt_type`. -/
def extract_letsmesh_decoder_txt_type (decoded_packet : Option PyDict) : Option Int :=
  match decoded_packet with
  | Option.none => Option.none
  | some dp => parse_int (pyGet dp "payloadType")

/-- `Subscriber._extract_letsmesh_decoder_path_length`. -/
def extract_letsmesh_decoder_path_length (decoded_packet : Option PyDict) : Option Int :=
  match decoded_packet with
  | Option.none => Option.none
  | some dp => parse_int (pyGet dp "pathLength")

/-- `Subscriber._extract_letsmesh_decoder_channel_hash`: the decoded
channel hash, uppercased, exactly one byte of hex. -/
def extract_letsmesh_decoder_channel_hash (decoded_packet : Option PyDict) :
    Option String :=
  match decoded_packet with
  | Option.none => Option.none
  | some dp =>
    match pyGetDict dp "payload" with
    | Option.none => Option.none
    | some payload =>
      match pyGetDict payload "decoded" with
      | Option.none => Option.none
      | some decoded =>
        match pyGet decoded "channelHash" with
        | .str channel_hash =>
          let normalized := pyUpper (pyStrip channel_hash)
          if pyLen normalized = 2 && normalized.data.all isHexUpperChar then
            some normalized
          else Option.none
        | _ => Option.none

/-- `Subscriber._normalize_full_public_key`: 64 uppercase hex characters. -/
def normalize_full_public_key : PyVal → Option String
  | .str s =>
    let normalized := pyUpper (removePfx (removePfx (pyStrip s) "0x") "0X")
    if pyLen normalized = 64 && normalized.data.all isHexUpperChar then some normalized
    else Option.none
  | _ => Option.none

/-- `Subscriber._normalize_pubkey_prefix`: trim, strip an optional `0x`/`0X`,
uppercase; reject empties, non-hex and candidates shorter than 8; keep the
first 12 characters. -/
def normalize_pubkey_pfx : PyVal → Option String
  | .str s =>
    let normalized := pyUpper (removePfx (removePfx (pyStrip s) "0x") "0X")
    if normalized = "" then Option.none
    else if !normalized.data.all isHexUpperChar then Option.none
    else if pyLen normalized < 8 then Option.none
    else some (pyTake normalized 12)
  | _ => Option.none

/-- Hex string to a number. -/
def hexStrToNat (s : String) : Nat := s.data.foldl (fun a c => a * 16 + hexCharVal c) 0

/-- `Subscriber._parse_channel_hash_idx`: one hex byte to its value 0-255. -/
def parse_channel_hash_idx (channel_hash : String) : Option Int :=
  let normalized := pyUpper (pyStrip channel_hash)
  if pyLen normalized = 2 && normalized.data.all isHexUpperChar then
    some (hexStrToNat normalized : Int)
  else Option.none

/-- `Subscriber._format_channel_label`: label by name, else numeric index,
else raw hash. -/
def format_channel_label (channel_name : Option String) (channel_hash : Option String)
    (channel_idx : Option Int) : Option String :=
  match channel_name with
  | some n =>
    if pyStrip n = "" then formatFallback channel_hash channel_idx
    else
      let cleaned := pyStrip n
      if pyLower cleaned = "public" then some "Public"
      else if pyStartsWith cleaned "#" then some cleaned
      else some ("#" ++ cleaned)
  | Option.none => formatFallback channel_hash channel_idx
where
  formatFallback (channel_hash : Option String) (channel_idx : Option Int) :
      Option String :=
    match channel_idx with
    | some idx => some ("Ch " ++ toString idx)
    | Option.none =>
      match channel_hash with
      | some h => if h = "" then Option.none else some ("Ch " ++ pyUpper h)
      | Option.none => Option.none

/-- `Subscriber._normalize_sender_name`: a non-blank string that does not
itself normalize as a hex key prefix. -/
def normalize_sender_name : PyVal → Option String
  | .str s =>
    let normalized := pyStrip s
    if normalized = "" then Option.none
    else
      match normalize_pubkey_pfx (.str normalized) with
      | some p => if p = "" then some normalized else Option.none
      | Option.none => some normalized
  | _ => Option.none

/-- `Subscriber._prefix_sender_name`: render `Sender: text` unless the text
already carries the sender tag. -/
def prefix_sender_name (text : String) (sender_name : PyVal) : String :=
  match sender_name with
  | .str sn =>
    let sender := pyStrip sn
    if sender = "" then text
    else
      let lower_text := pyLower (pyLStrip text)
      if pyStartsWith lower_text (pyLower (sender ++ ":")) then text
      else sender ++ ": " ++ text
  | _ => text

/-- The candidate pass of `Subscriber._normalize_letsmesh_adv_type`. -/
def advTypeCandidates (payload : PyDict) (keys : List String) : List String :=
  keys.filterMap fun k =>
    match pyGet payload k with
    | .str s => if pyStrip s = "" then Option.none else some (pyLower (pyStrip s))
    | _ => Option.none

/-- `Subscriber._normalize_letsmesh_adv_type`: keyword classification of the
joined role/model candidate strings. -/
def normalize_letsmesh_adv_type (payload : PyDict) : Option String :=
  let candidates :=
    advTypeCandidates payload ["adv_type", "type", "node_type", "role", "mode", "status"]
      ++ advTypeCandidates payload ["origin", "name", "model"]
  if candidates.isEmpty then Option.none
  else
    let normalized := String.intercalate " " candidates
    if ["room server", "roomserver", "room"].any (fun t => pyInStr t normalized) then
      some "room"
    else if ["repeater", "relay"].any (fun t => pyInStr t normalized) then some "repeater"
    else if ["companion", "observer"].any (fun t => pyInStr t normalized) then
      some "companion"
    else if pyInStr "chat" normalized then some "chat"
    else candidates.find? fun c => ["chat", "repeater", "room", "companion"].contains c

/-- Numeric device-role codes of `Subscriber._normalize_letsmesh_node_type`. -/
def numericNodeRole (n : Int) : Option String :=
  if n = 0 then Option.none
  else if n = 1 then some "chat"
  else if n = 2 then some "repeater"
  else if n = 3 then some "room"
  else if n = 4 then some "companion"
  else Option.none

/-- `Subscriber._normalize_letsmesh_node_type`. -/
def normalize_letsmesh_node_type : PyVal → Option String
  | .none => Option.none
  | .bool b => numericNodeRole (if b then 1 else 0)
  | .int n => numericNodeRole n
  | .float q => numericNodeRole (ratTrunc q)
  | .str s =>
    if pyStrip s = "" then Option.none
    else normalize_letsmesh_adv_type [("type", .str (pyStrip s))]
  | _ => Option.none

/-! ## `subscriber.py`: the LetsMesh payload builders and event normalizer -/

/-- Python `or` on optional strings (an empty string is falsy). -/
def pyOrOS (a b : Option String) : Option String :=
  match a with
  | some s => if s = "" then b else some s
  | Option.none => b

/-- Truthiness of an optional string. -/
def optStrTruthy : Option String → Bool
  | some s => !(s = "")
  | Option.none => false

/-- The status name candidate: `payload.get("origin") or payload.get("name")`
when it is a non-blank string, stripped. -/
def statusNameOpt (payload : PyDict) : Option String :=
  match pyOr (pyGet payload "origin") (pyGet payload "name") with
  | .str s => if pyStrip s = "" then Option.none else some (pyStrip s)
  | _ => Option.none

/-- The status latitude: `lat`, else `adv_lat`, else `location.latitude`. -/
def statusLat (payload : PyDict) : Option Rat :=
  match parse_float (pyGet payload "lat") with
  | some v => some v
  | Option.none =>
    match parse_float (pyGet payload "adv_lat") with
    | some v => some v
    | Option.none =>
      match pyGet payload "location" with
      | .dict location => parse_float (pyGet location "latitude")
      | _ => Option.none

/-- The status longitude: `lon`, else `adv_lon`, else `location.longitude`. -/
def statusLon (payload : PyDict) : Option Rat :=
  match parse_float (pyGet payload "lon") with
  | some v => some v
  | Option.none =>
    match parse_float (pyGet payload "adv_lon") with
    | some v => some v
    | Option.none =>
      match pyGet payload "location" with
      | .dict location => parse_float (pyGet location "longitude")
      | _ => Option.none

/-- `Subscriber._build_letsmesh_status_advertisement_payload`: normalize a
status feed payload into an advertisement, keeping only explicit top-level
`flags` (never counters inside nested `stats` objects) and returning nothing
when no identity-bearing field was found. -/
def build_letsmesh_status_advertisement_payload (payload : PyDict)
    (observer_public_key : String) : Option PyDict :=
  match normalize_full_public_key
      (pyOr (pyGet payload "origin_id")
        (pyOr (pyGet payload "public_key") (.str observer_public_key))) with
  | Option.none => Option.none
  | some status_public_key =>
    let p0 : PyDict := [("public_key", .str status_public_key)]
    let p1 :=
      match statusNameOpt payload with
      | some n => pySet p0 "name" (.str n)
      | Option.none => p0
    let p2 :=
      match normalize_letsmesh_adv_type payload with
      | some t => if t = "" then p1 else pySet p1 "adv_type" (.str t)
      | Option.none => p1
    let p3 :=
      match parse_int (pyGet payload "flags") with
      | some f => pySet p2 "flags" (.int f)
      | Option.none => p2
    let p4 :=
      match statusLat payload with
      | some v => pySet p3 "lat" (.float v)
      | Option.none => p3
    let p5 :=
      match statusLon payload with
      | some v => pySet p4 "lon" (.float v)
      | Option.none => p4
    if ["name", "adv_type", "flags", "lat", "lon"].any (fun k => pyContains p5 k) then
      some p5
    else Option.none

/-- `Subscriber._build_letsmesh_advertisement_payload`: decoder payload type
4 or 11 with a decoded payload object and a normalizable public key maps to
an advertisement with name/flags/role/location derivation. -/
def build_letsmesh_advertisement_payload (payload : PyDict)
    (decoded_packet : Option PyDict) : Option PyDict :=
  match decoded_packet with
  | Option.none => Option.none
  | some dp =>
    let decoded_payload_type := extract_letsmesh_decoder_payload_type (some dp)
    if !(decoded_payload_type = some 4 || decoded_payload_type = some 11) then Option.none
    else
      match extract_letsmesh_decoder_payload (some dp) with
      | Option.none => Option.none
      | some decoded_payload =>
        if decoded_payload.isEmpty then Option.none
        else
          match normalize_full_public_key
              (pyOr (pyGet decoded_payload "publicKey")
                (pyOr (pyGet payload "public_key") (pyGet payload "origin_id"))) with
          | Option.none => Option.none
          | some public_key =>
            let p0 : PyDict := [("public_key", .str public_key)]
            let p1 :=
              match pyGet decoded_payload "appData" with
              | .dict app_data =>
                let pa :=
                  match pyGet app_data "name" with
                  | .str s => if pyStrip s = "" then p0 else pySet p0 "name" (.str (pyStrip s))
                  | _ => p0
                let pb :=
                  match parse_int (pyGet app_data "flags") with
                  | some f => pySet pa "flags" (.int f)
                  | Option.none => pa
                let pc :=
                  match normalize_letsmesh_node_type (pyGet app_data "deviceRole") with
                  | some r => if r = "" then pb else pySet pb "adv_type" (.str r)
                  | Option.none => pb
                match pyGet app_data "location" with
                | .dict location =>
                  let lat := parse_float (pyGet location "latitude")
                  let lon := parse_float (pyGet location "longitude")
                  let pl :=
                    match lat with
                    | some v => pySet pc "lat" (.float v)
                    | Option.none => pc
                  match lon with
                  | some v => pySet pl "lon" (.float v)
                  | Option.none => pl
                | _ => pc
              | _ => p0
            let p2 :=
              if pyContains p1 "name" then p1
              else
                match pyOr (pyGet payload "origin") (pyGet payload "name") with
                | .str s => if pyStrip s = "" then p1 else pySet p1 "name" (.str (pyStrip s))
                | _ => p1
            let p3 :=
              if pyContains p2 "flags" then p2
              else
                match parse_int (pyGet decoded_payload "rawFlags") with
                | some f => pySet p2 "flags" (.int f)
                | Option.none => p2
            let p4 :=
              if pyContains p3 "adv_type" then p3
              else
                let node_type := normalize_letsmesh_node_type (pyGet decoded_payload "nodeType")
                let node_type_name :=
                  normalize_letsmesh_node_type (pyGet decoded_payload "nodeTypeName")
                match pyOrOS node_type (pyOrOS node_type_name (normalize_letsmesh_adv_type p3)) with
                | some t => if t = "" then p3 else pySet p3 "adv_type" (.str t)
                | Option.none => p3
            some p4

/-- The message event type of a resolved packet type: 5 is a channel
message, 1, 2 and 7 are contact messages, anything else is not a message. -/
def msgEventTypeOf (packet_type : Option Int) : Option String :=
  if packet_type = some 5 then some "channel_msg_recv"
  else if packet_type = some 1 ∨ packet_type = some 2 ∨ packet_type = some 7 then
    some "contact_msg_recv"
  else Option.none

/-- The payload-enrichment tail of `Subscriber._build_letsmesh_message_payload`
(everything after the decrypted-text check), mutating the payload copy field
by field in source order. -/
def build_letsmesh_message_body (names : List (String × String)) (payload : PyDict)
    (decoded_packet : Option PyDict) (packet_type : Option Int) (event_type : String)
    (text : String) : PyDict :=
  let packet_hash := pyGet payload "hash"
  let txt_type :=
    match parse_int (pyGet payload "txt_type") with
    | some t => some t
    | Option.none => extract_letsmesh_decoder_txt_type decoded_packet
  let normalized1 := pySet payload "txt_type"
    (match txt_type with
     | some t => .int t
     | Option.none => optIntVal packet_type)
  let normalized2 :=
    pySet normalized1 "signature" (pyOr (pyGet payload "signature") packet_hash)
  let path_len :=
    match parse_path_length (pyGet payload "path") with
    | some l => some l
    | Option.none => extract_letsmesh_decoder_path_length decoded_packet
  let normalized3 := pySet normalized2 "path_len" (optIntVal path_len)
  let sender_timestamp :=
    match parse_sender_timestamp payload with
    | some ts => some ts
    | Option.none => extract_letsmesh_decoder_sender_timestamp decoded_packet
  let normalized4 :=
    match sender_timestamp with
    | some ts => pySet normalized3 "sender_timestamp" (.int ts)
    | Option.none => normalized3
  let snr :=
    match parse_float (pyGet payload "SNR") with
    | some v => some v
    | Option.none => parse_float (pyGet payload "snr")
  let normalized5 :=
    match snr with
    | some v => pySet normalized4 "SNR" (.float v)
    | Option.none => normalized4
  let decoded_sender := extract_letsmesh_decoder_sender decoded_packet packet_type
  let sender_name := normalize_sender_name
    (match decoded_sender with
     | some s => .str s
     | Option.none => .none)
  let normalized6 :=
    match sender_name with
    | some n => pySet normalized5 "sender_name" (.str n)
    | Option.none => normalized5
  let normalized7 :=
    if optStrTruthy decoded_sender && !pyTruthy (pyGet normalized6 "pubkey_prefix") then
      match normalize_pubkey_pfx
          (match decoded_sender with
           | some s => .str s
           | Option.none => .none) with
      | some np => if np = "" then normalized6 else pySet normalized6 "pubkey_prefix" (.str np)
      | Option.none => normalized6
    else normalized6
  let normalized8 :=
    if !pyTruthy (pyGet normalized7 "pubkey_prefix") then
      match extract_letsmesh_sender_from_payload payload with
      | some fs => if fs = "" then normalized7 else pySet normalized7 "pubkey_prefix" (.str fs)
      | Option.none => normalized7
    else normalized7
  let normalized9 :=
    match normalize_pubkey_pfx (pyGet normalized8 "pubkey_prefix") with
    | some sp =>
      if sp = "" then pyPop normalized8 "pubkey_prefix"
      else pySet normalized8 "pubkey_prefix" (.str sp)
    | Option.none => pyPop normalized8 "pubkey_prefix"
  let channel_hash := extract_letsmesh_decoder_channel_hash decoded_packet
  let channel_idx :=
    match parse_int (pyGet payload "channel_idx") with
    | some i => some i
    | Option.none =>
      match channel_hash with
      | some h => if h = "" then Option.none else parse_channel_hash_idx h
      | Option.none => Option.none
  let normalized10 :=
    match channel_idx with
    | some i => pySet normalized9 "channel_idx" (.int i)
    | Option.none => normalized9
  if event_type = "channel_msg_recv" then
    let channel_name := channel_name_from_decoded names decoded_packet
    let channel_label := format_channel_label channel_name channel_hash channel_idx
    let normalized11 :=
      match channel_label with
      | some l => if l = "" then normalized10 else pySet normalized10 "channel_name" (.str l)
      | Option.none => normalized10
    pySet normalized11 "text"
      (.str (prefix_sender_name text (pyGet normalized11 "sender_name")))
  else
    pySet normalized10 "text"
      (.str (prefix_sender_name text (pyGet normalized10 "sender_name")))

/-- `Subscriber._build_letsmesh_message_payload`: classify the resolved
packet type as a message kind, then emit the enriched payload only when
decryptable text is recoverable from the decoded packet (in the source a
`None` decode result is re-requested from the cache, which returns the same
value, so the shared decode result is passed through). -/
def build_letsmesh_message_payload (names : List (String × String)) (payload : PyDict)
    (decoded_packet : Option PyDict) : Option (String × PyDict) :=
  let packet_type := resolve_letsmesh_packet_type payload decoded_packet
  match msgEventTypeOf packet_type with
  | Option.none => Option.none
  | some event_type =>
    match extract_letsmesh_decoder_text decoded_packet with
    | Option.none => Option.none
    | some text =>
      if text = "" then Option.none
      else
        some (event_type,
          build_letsmesh_message_body names payload decoded_packet packet_type event_type text)

/-- The `letsmesh_packet` fallback payload: the original payload plus, when
a decode succeeded (truthy, i.e. non-empty, decoded object), the decoded
packet and its numeric payload type. -/
def letsmesh_packet_fallback_payload (payload : PyDict)
    (decoded_packet : Option PyDict) : PyDict :=
  match decoded_packet with
  | some dp =>
    if dp.isEmpty then payload
    else
      let p := pySet payload "decoded_packet" (.dict dp)
      match extract_letsmesh_decoder_payload_type (some dp) with
      | some t => pySet p "decoded_payload_type" (.int t)
      | Option.none => p
  | Option.none => payload

/-- `Subscriber._normalize_letsmesh_event` after topic parsing: dispatch on
the feed kind (`status`, `packets`, `internal`); `decoded_packet` is the
decoder-bridge result for the payload (an external subprocess in the source,
passed here as a value). -/
def normalize_letsmesh_event (names : List (String × String))
    (observer_public_key : String) (feed_type : String) (payload : PyDict)
    (decoded_packet : Option PyDict) : Option (String × String × PyDict) :=
  if feed_type = "status" then
    match build_letsmesh_status_advertisement_payload payload observer_public_key with
    | some normalized_status => some (observer_public_key, "advertisement", normalized_status)
    | Option.none => some (observer_public_key, "letsmesh_status", payload)
  else if feed_type = "packets" then
    match build_letsmesh_message_payload names payload decoded_packet with
    | some ep => some (observer_public_key, ep.1, ep.2)
    | Option.none =>
      match build_letsmesh_advertisement_payload payload decoded_packet with
      | some adv => some (observer_public_key, "advertisement", adv)
      | Option.none =>
        some (observer_public_key, "letsmesh_packet",
          letsmesh_packet_fallback_payload payload decoded_packet)
  else if feed_type = "internal" then
    some (observer_public_key, "letsmesh_internal", payload)
  else Option.none

/-! ## `subscriber.py`: dispatch orchestrator, and `cleanup.py` -/

/-- An event handler: may raise (`Except.error` models a Python exception). -/
def EventHandlerFn (δ : Type) := String → String → PyDict → δ → Except String Unit

/-- The webhook dispatcher boundary: its configured endpoints. -/
structure WebhookDispatcherModel where
  webhooks : List String

/-- Webhook queue entries: `(event_type, payload, public_key)`. -/
abbrev WebhookQueue := List (String × PyDict × String)

/-- `Subscriber._dispatch_event`: invoke the type-specific handler or the
generic event-log fallback, catching (and merely logging) any exception
either raises, then append the event to the webhook queue exactly when a
dispatcher with at least one configured webhook is present. -/
def dispatch_event {δ : Type} (handlers : List (String × EventHandlerFn δ))
    (handle_event_log : EventHandlerFn δ)
    (webhook_dispatcher : Option WebhookDispatcherModel) (db : δ)
    (queue : WebhookQueue) (public_key event_type : String) (payload : PyDict) :
    WebhookQueue :=
  let _handled : Except String Unit :=
    match List.lookup event_type handlers with
    | some handler => handler public_key event_type payload db
    | Option.none => handle_event_log public_key event_type payload db
  if (match webhook_dispatcher with
      | some d => !d.webhooks.isEmpty
      | Option.none => false) then
    queue ++ [(event_type, payload, public_key)]
  else queue

/-- A row of the `nodes` table, as far as cleanup observes it: `last_seen`
is an epoch timestamp or SQL NULL. -/
structure NodeRow where
  public_key : String
  last_seen : Option Int
deriving DecidableEq

/-- `timedelta(days=1)` in epoch seconds. -/
def secondsPerDay : Int := 86400

/-- The cleanup WHERE clause: `last_seen < cutoff AND last_seen IS NOT NULL`
(a NULL comparison is never true in SQL). -/
def nodeInactive (cutoff : Int) (n : NodeRow) : Bool :=
  match n.last_seen with
  | some t => t < cutoff
  | Option.none => false

/-- `cleanup_inactive_nodes`: count (dry run) or delete the nodes matching
the inactivity predicate against `cutoff = now - inactivity_days`; returns
the affected-row count and the table contents afterwards. -/
def cleanup_inactive_nodes (now : Int) (nodes : List NodeRow) (inactivity_days : Int)
    (dry_run : Bool) : Int × List NodeRow :=
  let cutoff_date := now - inactivity_days * secondsPerDay
  if dry_run then
    ((nodes.countP fun n => nodeInactive cutoff_date n : Nat), nodes)
  else
    ((nodes.countP fun n => nodeInactive cutoff_date n : Nat),
     nodes.filter fun n => !nodeInactive cutoff_date n)

/-! ## Helper lemmas -/

/-- `a or ""` is the identity on strings. -/
theorem pyOrStr_self (s : String) : pyOrStr s "" = s := by
  unfold pyOrStr
  split <;> simp_all

/-- `List.lookup` distributes over append, preferring the left list. -/
theorem lookup_append {β : Type} (k : String) (l₁ l₂ : List (String × β)) :
    List.lookup k (l₁ ++ l₂) = (List.lookup k l₁).or (List.lookup k l₂) := by
  induction l₁ with
  | nil => simp [List.lookup]
  | cons e rest ih =>
    by_cases h : k == e.1
    · simp [List.lookup, h]
    · simp [List.lookup, h, ih]

/-- A lookup misses exactly when the key is absent from the key column. -/
theorem lookup_eq_none_iff {β : Type} (k : String) (l : List (String × β)) :
    List.lookup k l = Option.none ↔ k ∉ l.map Prod.fst := by
  induction l with
  | nil => simp [List.lookup]
  | cons e rest ih =>
    by_cases h : k = e.1
    · subst h
      simp [List.lookup]
    · have hb : (k == e.1) = false := by simpa using h
      simp [List.lookup, hb, ih, h]

/-- Matched count plus surviving-filter length is the total length. -/
theorem countP_add_length_filter_not {α : Type} (p : α → Bool) (l : List α) :
    l.countP p + (l.filter fun a => !p a).length = l.length := by
  induction l with
  | nil => rfl
  | cons a t ih =>
    by_cases h : p a <;>
      simp [List.countP_cons, List.filter_cons, h] <;> omega

/-- `List.all` is preserved by `take`. -/
theorem all_take {α : Type} (p : α → Bool) (l : List α) (h : l.all p = true) (n : Nat) :
    (l.take n).all p = true := by
  rw [List.all_eq_true] at h ⊢
  intro a ha
  exact h a ((List.take_sublist n l).subset ha)

/-! ## Claim theorems -/

/-- C10: `compute_telemetry_hash` with an empty `parsed_data` mapping equals
`compute_telemetry_hash` with `parsed_data` absent, all other arguments
equal (both are falsy in the `if parsed_data:` serialization guard). -/
theorem claim_C10 (pk : String) (t : Option PyDatetime) (bm : Int) :
    compute_telemetry_hash pk (some []) t bm = compute_telemetry_hash pk Option.none t bm :=
  rfl

/-- C9: `compute_message_hash` is a total deterministic function of the
`(text, pubkey_prefix, channel_idx, sender_timestamp, txt_type)` tuple: it
always equals the md5 of the canonical pipe-joined string whose tokens are
the present fields, each absent optional contributing a fixed empty token;
all-absent optionals give exactly the four-empty-token canonical string; and
equal tuples give equal output. -/
theorem claim_C9 :
    (∀ (text : String) (p : Option String) (c : Option Int) (st : Option PyDatetime)
       (x : Option Int),
      compute_message_hash text p c st x =
        md5hex (joinPipe [text, p.getD "",
          (match c with
           | some n => toString n
           | Option.none => ""),
          (match st with
           | some dt => dt.iso
           | Option.none => ""),
          (match x with
           | some n => toString n
           | Option.none => "")])) ∧
    (∀ text : String,
      compute_message_hash text Option.none Option.none Option.none Option.none =
        md5hex (joinPipe [text, "", "", "", ""])) ∧
    (∀ (t1 t2 : String) (p1 p2 : Option String) (c1 c2 : Option Int)
       (s1 s2 : Option PyDatetime) (x1 x2 : Option Int),
      t1 = t2 → p1 = p2 → c1 = c2 → s1 = s2 → x1 = x2 →
      compute_message_hash t1 p1 c1 s1 x1 = compute_message_hash t2 p2 c2 s2 x2) := by
  refine ⟨?_, ?_, ?_⟩
  · intro text p c st x
    cases c <;> cases st <;> cases x <;>
      simp only [compute_message_hash, pyOrStr_self]
  · intro text
    simp only [compute_message_hash, pyOrStr_self, Option.getD_none]
  · intro t1 t2 p1 p2 c1 c2 s1 s2 x1 x2 h1 h2 h3 h4 h5
    subst h1; subst h2; subst h3; subst h4; subst h5
    rfl

/-- C9 witness: the general canonical equation applied at a concrete input. -/
theorem claim_C9_witness :
    compute_message_hash "hi" (some "AABBCC112233") (some 3) Option.none (some 1) =
      md5hex (joinPipe ["hi", "AABBCC112233", "3", "", "1"]) :=
  claim_C9.1 "hi" (some "AABBCC112233") (some 3) Option.none (some 1)

/-- C2: advertisement and telemetry hashes agree whenever the two receive
timestamps floor-divide to the same `bucket_minutes * 60` bucket, all other
arguments equal; and at a concrete bucket boundary (epoch 299 vs 300 with
5-minute buckets) one tick past the boundary changes both hashes. -/
theorem claim_C2 :
    (∀ (pk : String) (name adv_type : Option String) (flags : Option Int) (bm : Int)
       (t1 t2 : PyDatetime),
      Int.fdiv t1.epoch (bm * 60) = Int.fdiv t2.epoch (bm * 60) →
      compute_advertisement_hash pk name adv_type flags (some t1) bm =
        compute_advertisement_hash pk name adv_type flags (some t2) bm) ∧
    (∀ (pk : String) (pd : Option PyDict) (bm : Int) (t1 t2 : PyDatetime),
      Int.fdiv t1.epoch (bm * 60) = Int.fdiv t2.epoch (bm * 60) →
      compute_telemetry_hash pk pd (some t1) bm =
        compute_telemetry_hash pk pd (some t2) bm) ∧
    (compute_advertisement_hash "A" Option.none Option.none Option.none
        (some ⟨299, ""⟩) 5 ≠
      compute_advertisement_hash "A" Option.none Option.none Option.none
        (some ⟨300, ""⟩) 5) ∧
    (compute_telemetry_hash "A" Option.none (some ⟨299, ""⟩) 5 ≠
      compute_telemetry_hash "A" Option.none (some ⟨300, ""⟩) 5) := by
  refine ⟨?_, ?_, by decide, by decide⟩
  · intro pk name adv_type flags bm t1 t2 h
    simp only [compute_advertisement_hash, timeBucketToken, h]
  · intro pk pd bm t1 t2 h
    simp only [compute_telemetry_hash, timeBucketToken, h]

/-- C2 witness: two timestamps in the same 5-minute bucket (epochs 3 and 7)
hash identically. -/
theorem claim_C2_witness :
    compute_advertisement_hash "K" Option.none Option.none Option.none (some ⟨3, ""⟩) 5 =
      compute_advertisement_hash "K" Option.none Option.none Option.none (some ⟨7, ""⟩) 5 :=
  claim_C2.1 "K" Option.none Option.none Option.none 5 ⟨3, ""⟩ ⟨7, ""⟩ (by decide)

/-- C6: event dispatch is a total function whose result does not depend on
the handler table, the fallback handler, or the store handle — in particular
a handler raising (`Except.error`) never propagates and never suppresses the
webhook enqueue — and the `(event_type, payload, public_key)` triple is
appended to the webhook queue exactly when a dispatcher with a non-empty
webhook list is present. -/
theorem claim_C6 (δ : Type) (handlers handlers' : List (String × EventHandlerFn δ))
    (hlog hlog' : EventHandlerFn δ) (wd : Option WebhookDispatcherModel) (db db' : δ)
    (queue : WebhookQueue) (pk et : String) (payload : PyDict) :
    dispatch_event handlers hlog wd db queue pk et payload =
      dispatch_event handlers' hlog' wd db' queue pk et payload ∧
    dispatch_event handlers hlog wd db queue pk et payload =
      (if (match wd with
           | some d => !d.webhooks.isEmpty
           | Option.none => false) then queue ++ [(et, payload, pk)] else queue) :=
  ⟨rfl, rfl⟩

/-- C6 witness: a raising handler still results in exactly one queued
webhook entry when an endpoint is configured. -/
theorem claim_C6_witness :
    dispatch_event (δ := Unit) [("advertisement", fun _ _ _ _ => .error "boom")]
        (fun _ _ _ _ => .ok ()) (some ⟨["https://example.invalid/hook"]⟩) () []
        "PK" "advertisement" [] =
      (if (match (some (WebhookDispatcherModel.mk ["https://example.invalid/hook"])) with
           | some d => !d.webhooks.isEmpty
           | Option.none => false) then
        ([] : WebhookQueue) ++ [("advertisement", [], "PK")]
      else []) :=
  (claim_C6 Unit [("advertisement", fun _ _ _ _ => .error "boom")] []
    (fun _ _ _ _ => .ok ()) (fun _ _ _ _ => .ok ())
    (some ⟨["https://example.invalid/hook"]⟩) () () [] "PK" "advertisement" []).2

/-- C7: non-dry cleanup retains exactly the nodes that are not strictly
older than the cutoff — never-seen (`NULL last_seen`) nodes always survive —
and dry-run cleanup deletes nothing while reporting the same count, which is
the number of rows removed. -/
theorem claim_C7 (now days : Int) (nodes : List NodeRow) :
    (∀ n : NodeRow, n ∈ (cleanup_inactive_nodes now nodes days false).2 ↔
      (n ∈ nodes ∧ ¬(∃ t, n.last_seen = some t ∧ t < now - days * secondsPerDay))) ∧
    (∀ n ∈ nodes, n.last_seen = Option.none →
      n ∈ (cleanup_inactive_nodes now nodes days false).2) ∧
    ((cleanup_inactive_nodes now nodes days false).1 +
        ((cleanup_inactive_nodes now nodes days false).2.length : Int) =
      (nodes.length : Int)) ∧
    ((cleanup_inactive_nodes now nodes days true).2 = nodes) ∧
    ((cleanup_inactive_nodes now nodes days true).1 =
      (cleanup_inactive_nodes now nodes days false).1) := by
  have hwet2 : (cleanup_inactive_nodes now nodes days false).2 =
      nodes.filter (fun n => !nodeInactive (now - days * secondsPerDay) n) := rfl
  have hwet1 : (cleanup_inactive_nodes now nodes days false).1 =
      ((nodes.countP fun n => nodeInactive (now - days * secondsPerDay) n : Nat) : Int) := rfl
  have hiff : ∀ n : NodeRow, nodeInactive (now - days * secondsPerDay) n = true ↔
      ∃ t, n.last_seen = some t ∧ t < now - days * secondsPerDay := by
    intro n
    cases h : n.last_seen <;> simp [nodeInactive, h]
  refine ⟨?_, ?_, ?_, rfl, rfl⟩
  · intro n
    rw [hwet2, List.mem_filter]
    constructor
    · rintro ⟨hmem, hp⟩
      refine ⟨hmem, fun hex => ?_⟩
      rw [← hiff n] at hex
      rw [hex] at hp
      simp at hp
    · rintro ⟨hmem, hne⟩
      refine ⟨hmem, ?_⟩
      have hfalse : nodeInactive (now - days * secondsPerDay) n = false := by
        cases hni : nodeInactive (now - days * secondsPerDay) n
        · rfl
        · exact absurd ((hiff n).mp hni) hne
      simp [hfalse]
  · intro n hmem hnone
    rw [hwet2, List.mem_filter]
    exact ⟨hmem, by simp [nodeInactive, hnone]⟩
  · rw [hwet1, hwet2]
    have h := countP_add_length_filter_not
      (fun n => nodeInactive (now - days * secondsPerDay) n) nodes
    omega

/-- C7 witness: a never-seen node survives a concrete non-dry cleanup. -/
theorem claim_C7_witness :
    (⟨"B", Option.none⟩ : NodeRow) ∈
      (cleanup_inactive_nodes 864050 [⟨"A", some 0⟩, ⟨"B", Option.none⟩] 10 false).2 :=
  (claim_C7 864050 10 [⟨"A", some 0⟩, ⟨"B", Option.none⟩]).2.1
    ⟨"B", Option.none⟩ (by decide) rfl

/-- C8 counterexample: an 8-hex-character candidate is accepted and returned
as an 8-character string, so the result is not always 12 characters long. -/
theorem claim_C8_counterexample :
    normalize_pubkey_pfx (.str "AABBCCDD") = some "AABBCCDD" ∧
      ¬(pyLen "AABBCCDD" = 12) := by decide

/-- C8 (amended): pubkey-prefix normalization returns `none` unless the
input is a string whose trimmed, `0x`/`0X`-stripped, uppercased candidate is
hex with at least 8 characters; otherwise it returns the first
`min(length, 12)` characters of that candidate — an uppercase hex string of
length between 8 and 12, not always exactly 12. -/
theorem claim_C8 (v : PyVal) :
    (∀ s : String, v = .str s →
      (¬((pyUpper (removePfx (removePfx (pyStrip s) "0x") "0X")).data.all
            isHexUpperChar = true ∧
          8 ≤ pyLen (pyUpper (removePfx (removePfx (pyStrip s) "0x") "0X"))) →
        normalize_pubkey_pfx v = Option.none) ∧
      (((pyUpper (removePfx (removePfx (pyStrip s) "0x") "0X")).data.all
            isHexUpperChar = true ∧
          8 ≤ pyLen (pyUpper (removePfx (removePfx (pyStrip s) "0x") "0X"))) →
        normalize_pubkey_pfx v =
          some (pyTake (pyUpper (removePfx (removePfx (pyStrip s) "0x") "0X")) 12))) ∧
    ((∀ s : String, ¬(v = .str s)) → normalize_pubkey_pfx v = Option.none) ∧
    (∀ r : String, normalize_pubkey_pfx v = some r →
      8 ≤ pyLen r ∧ pyLen r ≤ 12 ∧ r.data.all isHexUpperChar = true) := by
  refine ⟨?_, ?_, ?_⟩
  · rintro s rfl
    constructor
    · intro hnot
      simp only [normalize_pubkey_pfx]
      split
      · rfl
      next hne =>
        split
        · rfl
        next hhex =>
          split
          · rfl
          next hlen =>
            exact absurd ⟨by simpa using hhex, by omega⟩ hnot
    · rintro ⟨hhex, hlen⟩
      simp only [normalize_pubkey_pfx]
      split
      next hempty =>
        exfalso
        rw [hempty] at hlen
        simp [pyLen] at hlen
      next hne =>
        split
        next hnothex => simp [hhex] at hnothex
        next =>
          split
          next hshort => omega
          next => rfl
  · intro hns
    cases v with
    | str s => exact absurd rfl (hns s)
    | none => rfl
    | bool b => rfl
    | int n => rfl
    | float q => rfl
    | list xs => rfl
    | dict d => rfl
  · intro r hr
    cases v with
    | str s =>
      simp only [normalize_pubkey_pfx] at hr
      split at hr
      · exact absurd hr (by simp)
      next hne =>
        split at hr
        · exact absurd hr (by simp)
        next hhex =>
          split at hr
          · exact absurd hr (by simp)
          next hlen =>
            have hr' : pyTake (pyUpper (removePfx (removePfx (pyStrip s) "0x") "0X")) 12 = r :=
              by injection hr
            subst hr'
            have hall : (pyUpper (removePfx (removePfx (pyStrip s) "0x") "0X")).data.all
                isHexUpperChar = true := by simpa using hhex
            refine ⟨?_, ?_, ?_⟩
            · simp only [pyTake, pyLen, List.length_take]
              simp only [pyLen] at hlen
              omega
            · simp only [pyTake, pyLen, List.length_take]
              omega
            · simpa [pyTake] using all_take isHexUpperChar _ hall 12
    | none => exact absurd hr (by simp [normalize_pubkey_pfx])
    | bool b => exact absurd hr (by simp [normalize_pubkey_pfx])
    | int n => exact absurd hr (by simp [normalize_pubkey_pfx])
    | float q => exact absurd hr (by simp [normalize_pubkey_pfx])
    | list xs => exact absurd hr (by simp [normalize_pubkey_pfx])
    | dict d => exact absurd hr (by simp [normalize_pubkey_pfx])

/-- C8 witness: a 16-hex-character lowercase candidate is uppercased and cut
to its first 12 characters. -/
theorem claim_C8_witness :
    normalize_pubkey_pfx (.str "aabbccddeeff0011") =
      some (pyTake (pyUpper (removePfx (removePfx (pyStrip "aabbccddeeff0011") "0x") "0X")) 12) :=
  ((claim_C8 (.str "aabbccddeeff0011")).1 "aabbccddeeff0011" rfl).2 (by decide)

/-- Characterization of `decode_payload` on a fresh raw-hex key: the decode
result is cached by appending, with the head evicted past the maximum. -/
theorem decode_payload_new_key (decodeRaw : String → Option PyDict) (cache : DecodeCache)
    (payload : PyDict) (raw_hex : String) (hraw : pyGet payload "raw" = .str raw_hex)
    (hclean : ¬(pyStrip raw_hex = ""))
    (hmiss : List.lookup (pyStrip raw_hex) cache = Option.none) :
    decode_payload decodeRaw cache payload =
      (decodeRaw (pyStrip raw_hex),
        if decode_cache_maxsize <
            (cache ++ [(pyStrip raw_hex, decodeRaw (pyStrip raw_hex))]).length then
          (cache ++ [(pyStrip raw_hex, decodeRaw (pyStrip raw_hex))]).tail
        else cache ++ [(pyStrip raw_hex, decodeRaw (pyStrip raw_hex))]) := by
  simp only [decode_payload, hraw, hmiss, if_neg hclean]
  split <;> rfl

/-- C4: starting from a well-formed cache (unique keys, within the 2048-entry
bound), any `decode_payload` call leaves at most 2048 entries; and when a new
raw-hex key is inserted into a full cache, the earliest-inserted entry is no
longer present while the newly inserted key is, the cache staying exactly
full. -/
theorem claim_C4 (decodeRaw : String → Option PyDict) (cache : DecodeCache)
    (payload : PyDict) (hnodup : (cache.map Prod.fst).Nodup)
    (hlen : cache.length ≤ decode_cache_maxsize) :
    ((decode_payload decodeRaw cache payload).2.length ≤ decode_cache_maxsize) ∧
    (∀ raw_hex : String, pyGet payload "raw" = .str raw_hex →
      ¬(pyStrip raw_hex = "") →
      List.lookup (pyStrip raw_hex) cache = Option.none →
      cache.length = decode_cache_maxsize →
      List.lookup (pyStrip raw_hex) (decode_payload decodeRaw cache payload).2 =
          some (decodeRaw (pyStrip raw_hex)) ∧
        (∀ hd, cache.head? = some hd →
          List.lookup hd.1 (decode_payload decodeRaw cache payload).2 = Option.none) ∧
        (decode_payload decodeRaw cache payload).2.length = decode_cache_maxsize) := by
  constructor
  · cases hraw : pyGet payload "raw" with
    | str raw_hex =>
      by_cases hclean : pyStrip raw_hex = ""
      · simp only [decode_payload, hraw, if_pos hclean]
        exact hlen
      · cases hmiss : List.lookup (pyStrip raw_hex) cache with
        | some cached =>
          simp only [decode_payload, hraw, hmiss, if_neg hclean]
          exact hlen
        | none =>
          rw [decode_payload_new_key decodeRaw cache payload raw_hex hraw hclean hmiss]
          by_cases hover : decode_cache_maxsize <
              (cache ++ [(pyStrip raw_hex, decodeRaw (pyStrip raw_hex))]).length
          · rw [if_pos hover]
            simp only [List.length_tail, List.length_append, List.length_cons,
              List.length_nil] at *
            omega
          · rw [if_neg hover]
            simp only [List.length_append, List.length_cons, List.length_nil] at *
            omega
    | none => simpa only [decode_payload, hraw] using hlen
    | bool b => simpa only [decode_payload, hraw] using hlen
    | int n => simpa only [decode_payload, hraw] using hlen
    | float q => simpa only [decode_payload, hraw] using hlen
    | list xs => simpa only [decode_payload, hraw] using hlen
    | dict d => simpa only [decode_payload, hraw] using hlen
  · intro raw_hex hraw hclean hmiss hfull
    rw [decode_payload_new_key decodeRaw cache payload raw_hex hraw hclean hmiss]
    have hover : decode_cache_maxsize <
        (cache ++ [(pyStrip raw_hex, decodeRaw (pyStrip raw_hex))]).length := by
      rw [List.length_append]
      simp only [List.length_cons, List.length_nil]
      omega
    rw [if_pos hover]
    cases cache with
    | nil => simp [decode_cache_maxsize] at hfull
    | cons hd rest =>
      have hkey_not_mem : pyStrip raw_hex ∉ (hd :: rest).map Prod.fst :=
        (lookup_eq_none_iff (pyStrip raw_hex) (hd :: rest)).mp hmiss
      have hhd_ne : ¬(hd.1 = pyStrip raw_hex) := fun h => hkey_not_mem (by simp [← h])
      have hrest_miss : List.lookup (pyStrip raw_hex) rest = Option.none := by
        rw [lookup_eq_none_iff]
        exact fun hmem => hkey_not_mem (by simp [hmem])
      have hhd_not_rest : hd.1 ∉ rest.map Prod.fst := by
        simp only [List.map_cons, List.nodup_cons] at hnodup
        exact hnodup.1
      have htail : (hd :: rest ++ [(pyStrip raw_hex, decodeRaw (pyStrip raw_hex))]).tail =
          rest ++ [(pyStrip raw_hex, decodeRaw (pyStrip raw_hex))] := rfl
      rw [htail]
      refine ⟨?_, ?_, ?_⟩
      · rw [lookup_append, hrest_miss]
        simp [List.lookup]
      · intro hd' hhd'
        have heq : hd' = hd := by
          simp only [List.head?_cons, Option.some.injEq] at hhd'
          exact hhd'.symm
        rw [heq, lookup_append, (lookup_eq_none_iff hd.1 rest).mpr hhd_not_rest]
        have hb : (hd.1 == pyStrip raw_hex) = false := by simpa using hhd_ne
        simp [List.lookup, hb]
      · rw [List.length_append]
        simp only [List.length_cons, List.length_nil] at *
        omega

/-- C4 witness: the bound holds on a concrete call from an empty cache. -/
theorem claim_C4_witness :
    ((decode_payload (fun _ => Option.none) [] [("raw", .str "AABB")]).2.length ≤
      decode_cache_maxsize) :=
  (claim_C4 (fun _ => Option.none) [] [("raw", .str "AABB")] (by decide) (by decide)).1

/-- C3: a status-feed payload whose derived advertisement candidate carries
none of name, adv_type, flags, lat, or lon (in particular one whose only
flag-like data sits inside a nested `stats` object, since flags are read
only from the top-level `flags` field) is emitted as a `letsmesh_status`
event — neither an advertisement nor discarded. -/
theorem claim_C3 (names : List (String × String)) (obs : String) (payload : PyDict)
    (decoded : Option PyDict)
    (hname : statusNameOpt payload = Option.none)
    (htype : normalize_letsmesh_adv_type payload = Option.none)
    (hflags : parse_int (pyGet payload "flags") = Option.none)
    (hlat : statusLat payload = Option.none)
    (hlon : statusLon payload = Option.none) :
    normalize_letsmesh_event names obs "status" payload decoded =
      some (obs, "letsmesh_status", payload) := by
  have hbuild : build_letsmesh_status_advertisement_payload payload obs = Option.none := by
    unfold build_letsmesh_status_advertisement_payload
    cases hpk : normalize_full_public_key
        (pyOr (pyGet payload "origin_id")
          (pyOr (pyGet payload "public_key") (.str obs))) with
    | none => rfl
    | some pk =>
      simp only [hname, htype, hflags, hlat, hlon]
      rfl
  unfold normalize_letsmesh_event
  rw [if_pos rfl, hbuild]

/-- C3 witness: a payload carrying only `stats.debug_flags` yields
`letsmesh_status` (flags are never read from nested stats counters). -/
theorem claim_C3_witness :
    normalize_letsmesh_event [] (String.mk (List.replicate 64 'a')) "status"
        [("stats", .dict [("debug_flags", .int 7)])] Option.none =
      some (String.mk (List.replicate 64 'a'), "letsmesh_status",
        [("stats", .dict [("debug_flags", .int 7)])]) :=
  claim_C3 [] (String.mk (List.replicate 64 'a'))
    [("stats", .dict [("debug_flags", .int 7)])] Option.none rfl rfl rfl rfl rfl

/-- The two built-in channel keys as normalized entries; their channel
hashes are the first SHA-256 byte of the respective key bytes. -/
def builtinChannelKeyEntries : List ChannelKey :=
  [⟨some "Public", "8B3387E9C5CDEA6AC9E5EDBAA115CD72", "11"⟩,
   ⟨some "test", "9CD8FCF22A47333B591D96A2B848B73F", "D9"⟩]

/-- Folding the two built-in `label=hex` strings from the empty state yields
exactly the built-in entries with their key hexes marked as seen. -/
theorem channelKeyFold_builtins (vs : List String) :
    channelKeyFold [] [] ((BUILTIN_CHANNEL_KEYS.map fun lk => lk.1 ++ "=" ++ lk.2) ++ vs) =
      channelKeyFold builtinChannelKeyEntries
        ["8B3387E9C5CDEA6AC9E5EDBAA115CD72", "9CD8FCF22A47333B591D96A2B848B73F"] vs := rfl

/-- Invariant of the channel-key fold: on success the accumulator only grows
by entries normalized from the processed values, the key-hex column stays
duplicate-free, every well-formed value's key hex is represented, and a
well-formed value whose key hex is fresh (not yet seen, and not produced by
any earlier value) contributes its own entry — the first occurrence wins. -/
theorem channelKeyFold_spec (vs : List String) :
    ∀ (acc : List ChannelKey) (seen : List String) (res : List ChannelKey × List String),
    seen = acc.map ChannelKey.key_hex →
    (acc.map ChannelKey.key_hex).Nodup →
    channelKeyFold acc seen vs = .ok res →
    (∃ Δ, res.1 = acc ++ Δ ∧
      ∀ e ∈ Δ, ∃ v ∈ vs, normalize_channel_entry (some v) = .ok (some e)) ∧
    (res.1.map ChannelKey.key_hex).Nodup ∧
    (∀ v ∈ vs, ∀ e, normalize_channel_entry (some v) = .ok (some e) →
      e.key_hex ∈ res.1.map ChannelKey.key_hex) ∧
    (∀ (pre : List String) (v : String) (post : List String), vs = pre ++ v :: post →
      ∀ e, normalize_channel_entry (some v) = .ok (some e) →
      ¬(e.key_hex ∈ seen) →
      (∀ v' ∈ pre, ∀ e', normalize_channel_entry (some v') = .ok (some e') →
        ¬(e'.key_hex = e.key_hex)) →
      e ∈ res.1) := by
  induction vs with
  | nil =>
    intro acc seen res hseen hnodup h
    simp only [channelKeyFold, Except.ok.injEq] at h
    subst h
    refine ⟨⟨[], by simp, by simp⟩, hnodup, by simp, ?_⟩
    intro pre v post hsplit
    cases pre <;> simp at hsplit
  | cons v0 rest ih =>
    intro acc seen res hseen hnodup h
    rw [channelKeyFold] at h
    cases hv : normalize_channel_entry (some v0) with
    | error e => rw [hv] at h; cases h
    | ok oe =>
      rw [hv] at h
      cases oe with
      | none =>
        obtain ⟨⟨Δ, hres, hprov⟩, hnd, hcov, hfirst⟩ := ih acc seen res hseen hnodup h
        refine ⟨⟨Δ, hres, ?_⟩, hnd, ?_, ?_⟩
        · intro e he
          obtain ⟨v', hv', hn⟩ := hprov e he
          exact ⟨v', List.mem_cons_of_mem v0 hv', hn⟩
        · intro v' hv' e hn
          rcases List.mem_cons.mp hv' with rfl | hv''
          · rw [hv] at hn; cases hn
          · exact hcov v' hv'' e hn
        · intro pre v post hsplit e hne hnotseen hearlier
          cases pre with
          | nil =>
            simp only [List.nil_append, List.cons.injEq] at hsplit
            rw [← hsplit.1, hv] at hne
            cases hne
          | cons p0 pre' =>
            simp only [List.cons_append, List.cons.injEq] at hsplit
            exact hfirst pre' v post hsplit.2 e hne hnotseen
              (fun v' hv' e' hn' => hearlier v' (List.mem_cons_of_mem p0 hv') e' hn')
      | some entry =>
        have h' : (if entry.key_hex ∈ seen then channelKeyFold acc seen rest
            else channelKeyFold (acc ++ [entry]) (seen ++ [entry.key_hex]) rest) =
            Except.ok res := h
        by_cases hmem : entry.key_hex ∈ seen
        · rw [if_pos hmem] at h'
          obtain ⟨⟨Δ, hres, hprov⟩, hnd, hcov, hfirst⟩ := ih acc seen res hseen hnodup h'
          refine ⟨⟨Δ, hres, ?_⟩, hnd, ?_, ?_⟩
          · intro e he
            obtain ⟨v', hv', hn⟩ := hprov e he
            exact ⟨v', List.mem_cons_of_mem v0 hv', hn⟩
          · intro v' hv' e hn
            rcases List.mem_cons.mp hv' with rfl | hv''
            · have he : e = entry := by
                rw [hv] at hn
                injection hn with hn'
                injection hn' with hn2
                exact hn2.symm
              subst he
              rw [hres, List.map_append]
              exact List.mem_append_left _ (by rw [← hseen]; exact hmem)
            · exact hcov v' hv'' e hn
          · intro pre v post hsplit e hne hnotseen hearlier
            cases pre with
            | nil =>
              simp only [List.nil_append, List.cons.injEq] at hsplit
              rw [← hsplit.1, hv] at hne
              have he : e = entry := by
                injection hne with hn'
                injection hn' with hn2
                exact hn2.symm
              subst he
              exact absurd hmem hnotseen
            | cons p0 pre' =>
              simp only [List.cons_append, List.cons.injEq] at hsplit
              exact hfirst pre' v post hsplit.2 e hne hnotseen
                (fun v' hv' e' hn' => hearlier v' (List.mem_cons_of_mem p0 hv') e' hn')
        · rw [if_neg hmem] at h'
          have hseen' : seen ++ [entry.key_hex] =
              (acc ++ [entry]).map ChannelKey.key_hex := by
            rw [List.map_append, hseen]
            rfl
          have hnodup' : ((acc ++ [entry]).map ChannelKey.key_hex).Nodup := by
            rw [List.map_append]
            rw [List.nodup_append]
            refine ⟨hnodup, by simp, ?_⟩
            intro a ha
            simp only [List.map_cons, List.map_nil, List.mem_cons,
              List.not_mem_nil, or_false]
            intro heq
            subst heq
            exact hmem (by rw [hseen]; exact ha)
          obtain ⟨⟨Δ, hres, hprov⟩, hnd, hcov, hfirst⟩ :=
            ih (acc ++ [entry]) (seen ++ [entry.key_hex]) res hseen' hnodup' h'
          refine ⟨⟨entry :: Δ, ?_, ?_⟩, hnd, ?_, ?_⟩
          · rw [hres, List.append_assoc]
            rfl
          · intro e he
            rcases List.mem_cons.mp he with rfl | he'
            · exact ⟨v0, List.mem_cons_self v0 rest, hv⟩
            · obtain ⟨v', hv', hn⟩ := hprov e he'
              exact ⟨v', List.mem_cons_of_mem v0 hv', hn⟩
          · intro v' hv' e hn
            rcases List.mem_cons.mp hv' with rfl | hv''
            · have he : e = entry := by
                rw [hv] at hn
                injection hn with hn'
                injection hn' with hn2
                exact hn2.symm
              subst he
              rw [hres, List.map_append, List.map_append]
              exact List.mem_append_left _
                (List.mem_append_right _ (by simp))
            · exact hcov v' hv'' e hn
          · intro pre v post hsplit e hne hnotseen hearlier
            cases pre with
            | nil =>
              simp only [List.nil_append, List.cons.injEq] at hsplit
              rw [← hsplit.1, hv] at hne
              have he : e = entry := by
                injection hne with hn'
                injection hn' with hn2
                exact hn2.symm
              subst he
              rw [hres]
              exact List.mem_append_left _ (List.mem_append_right _ (by simp))
            | cons p0 pre' =>
              simp only [List.cons_append, List.cons.injEq] at hsplit
              have hv0mem : v0 ∈ p0 :: pre' := by
                rw [hsplit.1]
                exact List.mem_cons_self p0 pre'
              have hentry_ne : ¬(entry.key_hex = e.key_hex) :=
                hearlier v0 hv0mem entry hv
              have hne' : ¬(e.key_hex ∈ seen ++ [entry.key_hex]) := by
                intro hin
                rcases List.mem_append.mp hin with hin | hin
                · exact hnotseen hin
                · exact hentry_ne (List.mem_singleton.mp hin).symm
              exact hfirst pre' v post hsplit.2 e hne hne'
                (fun v' hv' e' hn' => hearlier v' (List.mem_cons_of_mem p0 hv') e' hn')

/-- C5: whenever channel-key normalization completes (the `ValueError`
raised by `bytes.fromhex` on an odd-length hex key aside), the normalized
list begins with the two built-in entries, its `key_hex` column (uppercased,
hence case-insensitive) has no duplicates, every entry stems from a built-in
or a well-formed configured value (malformed entries contribute nothing),
and every well-formed configured value's key hex is represented.  The first
occurrence is kept: a well-formed configured value whose key hex collides
with no built-in and with no earlier well-formed value contributes its own
entry, label included, to the list; and per key hex the retained entry is
unique, so a later duplicate can never supplant the first occurrence's
entry (built-ins, processed first, taking priority over configured keys). -/
theorem claim_C5 (values : List String) (l : List ChannelKey)
    (h : normalize_channel_keys values = .ok l) :
    l.take 2 = builtinChannelKeyEntries ∧
    (l.map ChannelKey.key_hex).Nodup ∧
    (∀ e ∈ l, e ∈ builtinChannelKeyEntries ∨
      ∃ v ∈ values, normalize_channel_entry (some v) = .ok (some e)) ∧
    (∀ v ∈ values, ∀ e, normalize_channel_entry (some v) = .ok (some e) →
      e.key_hex ∈ l.map ChannelKey.key_hex) ∧
    (∀ (pre : List String) (v : String) (post : List String), values = pre ++ v :: post →
      ∀ e, normalize_channel_entry (some v) = .ok (some e) →
      ¬(e.key_hex ∈ builtinChannelKeyEntries.map ChannelKey.key_hex) →
      (∀ v' ∈ pre, ∀ e', normalize_channel_entry (some v') = .ok (some e') →
        ¬(e'.key_hex = e.key_hex)) →
      e ∈ l) ∧
    (∀ e ∈ l, ∀ e' ∈ l, e.key_hex = e'.key_hex → e = e') := by
  unfold normalize_channel_keys at h
  rw [channelKeyFold_builtins] at h
  cases hfold : channelKeyFold builtinChannelKeyEntries
      ["8B3387E9C5CDEA6AC9E5EDBAA115CD72", "9CD8FCF22A47333B591D96A2B848B73F"] values with
  | error e => rw [hfold] at h; cases h
  | ok res =>
    rw [hfold] at h
    simp only [Except.map, Except.ok.injEq] at h
    obtain ⟨⟨Δ, hres, hprov⟩, hnd, hcov, hfirst⟩ :=
      channelKeyFold_spec values builtinChannelKeyEntries _ res rfl (by decide) hfold
    subst h
    refine ⟨?_, hnd, ?_, ?_, ?_, ?_⟩
    · rw [hres]
      have hlen : builtinChannelKeyEntries.length = 2 := rfl
      rw [← hlen, List.take_left]
    · intro e he
      rw [hres] at he
      rcases List.mem_append.mp he with hb | hd
      · exact Or.inl hb
      · exact Or.inr (hprov e hd)
    · intro v hv e hn
      exact hcov v hv e hn
    · intro pre v post hsplit e hne hnotbuiltin hearlier
      have hbseen : builtinChannelKeyEntries.map ChannelKey.key_hex =
          ["8B3387E9C5CDEA6AC9E5EDBAA115CD72", "9CD8FCF22A47333B591D96A2B848B73F"] := rfl
      rw [hbseen] at hnotbuiltin
      exact hfirst pre v post hsplit e hne hnotbuiltin hearlier
    · intro e he e' he' hk
      exact List.inj_on_of_nodup_map hnd he he' hk

/-- C5 witness: with no configured keys, normalization succeeds and the
normalized list begins with (indeed equals) the built-in entries. -/
theorem claim_C5_witness :
    builtinChannelKeyEntries.take 2 = builtinChannelKeyEntries :=
  (claim_C5 [] builtinChannelKeyEntries rfl).1

/-- `msgEventTypeOf` yields the channel kind exactly for packet type 5. -/
theorem msgEventTypeOf_channel_iff (pt : Option Int) :
    msgEventTypeOf pt = some "channel_msg_recv" ↔ pt = some 5 := by
  by_cases h1 : pt = some 5
  · simp [msgEventTypeOf, h1]
  · by_cases h2 : pt = some 1 ∨ pt = some 2 ∨ pt = some 7
    · rw [msgEventTypeOf, if_neg h1, if_pos h2]
      constructor
      · intro hx
        exact absurd (Option.some.inj hx) (by decide)
      · intro hx
        exact absurd hx h1
    · rw [msgEventTypeOf, if_neg h1, if_neg h2]
      constructor
      · intro hx
        cases hx
      · intro hx
        exact absurd hx h1

/-- `msgEventTypeOf` yields the contact kind exactly for packet types
1, 2 and 7. -/
theorem msgEventTypeOf_contact_iff (pt : Option Int) :
    msgEventTypeOf pt = some "contact_msg_recv" ↔
      (pt = some 1 ∨ pt = some 2 ∨ pt = some 7) := by
  by_cases h1 : pt = some 5
  · rw [msgEventTypeOf, if_pos h1]
    constructor
    · intro hx
      exact absurd (Option.some.inj hx) (by decide)
    · intro hx
      rcases h1 with rfl
      rcases hx with hx | hx | hx <;> cases hx
  · by_cases h2 : pt = some 1 ∨ pt = some 2 ∨ pt = some 7
    · simp [msgEventTypeOf, if_neg h1, h2]
    · rw [msgEventTypeOf, if_neg h1, if_neg h2]
      constructor
      · intro hx
        cases hx
      · intro hx
        exact absurd hx h2

/-- A produced message event type is one of the two message kinds. -/
theorem msgEventTypeOf_values (pt : Option Int) (et : String)
    (h : msgEventTypeOf pt = some et) :
    et = "channel_msg_recv" ∨ et = "contact_msg_recv" := by
  by_cases h1 : pt = some 5
  · rw [msgEventTypeOf, if_pos h1] at h
    exact Or.inl (Option.some.inj h).symm
  · by_cases h2 : pt = some 1 ∨ pt = some 2 ∨ pt = some 7
    · rw [msgEventTypeOf, if_neg h1, if_pos h2] at h
      exact Or.inr (Option.some.inj h).symm
    · rw [msgEventTypeOf, if_neg h1, if_neg h2] at h
      cases h

/-- An optional string is truthy exactly when it is a non-empty `some`. -/
theorem optStrTruthy_true_iff (o : Option String) :
    optStrTruthy o = true ↔ ∃ s, o = some s ∧ ¬(s = "") := by
  cases o <;> simp [optStrTruthy]

/-- A message payload is built exactly when the event type resolves and
non-empty decrypted text is recoverable. -/
theorem build_msg_some (names : List (String × String)) (payload : PyDict)
    (decoded : Option PyDict) (et : String) (t : String)
    (hm : msgEventTypeOf (resolve_letsmesh_packet_type payload decoded) = some et)
    (hx : extract_letsmesh_decoder_text decoded = some t) (hne : ¬(t = "")) :
    build_letsmesh_message_payload names payload decoded =
      some (et, build_letsmesh_message_body names payload decoded
        (resolve_letsmesh_packet_type payload decoded) et t) := by
  simp only [build_letsmesh_message_payload, hm, hx, if_neg hne]

/-- No message payload is built when no truthy text is recoverable. -/
theorem build_msg_none_of_text (names : List (String × String)) (payload : PyDict)
    (decoded : Option PyDict)
    (ht : optStrTruthy (extract_letsmesh_decoder_text decoded) = false) :
    build_letsmesh_message_payload names payload decoded = Option.none := by
  cases hm : msgEventTypeOf (resolve_letsmesh_packet_type payload decoded) with
  | none => simp only [build_letsmesh_message_payload, hm]
  | some et =>
    cases hx : extract_letsmesh_decoder_text decoded with
    | none => simp only [build_letsmesh_message_payload, hm, hx]
    | some t =>
      have hempty : t = "" := by
        rw [hx] at ht
        simpa [optStrTruthy] using ht
      simp only [build_letsmesh_message_payload, hm, hx, if_pos hempty]

/-- Inversion: a built message payload implies a resolved message event type
and recoverable truthy text. -/
theorem build_msg_inv (names : List (String × String)) (payload : PyDict)
    (decoded : Option PyDict) (et : String) (p : PyDict)
    (h : build_letsmesh_message_payload names payload decoded = some (et, p)) :
    msgEventTypeOf (resolve_letsmesh_packet_type payload decoded) = some et ∧
      optStrTruthy (extract_letsmesh_decoder_text decoded) = true := by
  cases hm : msgEventTypeOf (resolve_letsmesh_packet_type payload decoded) with
  | none =>
    simp only [build_letsmesh_message_payload, hm] at h
    exact Option.noConfusion h
  | some et' =>
    cases hx : extract_letsmesh_decoder_text decoded with
    | none =>
      simp only [build_letsmesh_message_payload, hm, hx] at h
      exact Option.noConfusion h
    | some t =>
      by_cases hne : t = ""
      · simp only [build_letsmesh_message_payload, hm, hx, if_pos hne] at h
        exact Option.noConfusion h
      · simp only [build_letsmesh_message_payload, hm, hx, if_neg hne,
          Option.some.injEq, Prod.mk.injEq] at h
        exact ⟨by rw [h.1], by simpa [optStrTruthy] using hne⟩

/-- The packets-feed branch of the normalizer. -/
theorem normalize_packets (names : List (String × String)) (obs : String)
    (payload : PyDict) (decoded : Option PyDict) :
    normalize_letsmesh_event names obs "packets" payload decoded =
      (match build_letsmesh_message_payload names payload decoded with
       | some ep => some (obs, ep.1, ep.2)
       | Option.none =>
         match build_letsmesh_advertisement_payload payload decoded with
         | some adv => some (obs, "advertisement", adv)
         | Option.none =>
           some (obs, "letsmesh_packet",
             letsmesh_packet_fallback_payload payload decoded)) := by
  rw [normalize_letsmesh_event, if_neg (by decide), if_pos rfl]

/-- C1: in letsmesh_upload ingest mode, for every packets-feed payload (the
decoder-bridge result quantified as a value): a `channel_msg_recv` event is
produced exactly when the resolved packet type is 5 and non-empty text is
recoverable from the decoded packet's payload (the depth-3 recursive key
search); a `contact_msg_recv` event exactly when the resolved type is 1, 2
or 7 with such text; with no recoverable text the packet surfaces as
`letsmesh_packet` or `advertisement`; and every packets-feed payload yields
exactly one of the four event kinds — never a message otherwise. -/
theorem claim_C1 (names : List (String × String)) (obs : String) (payload : PyDict)
    (decoded : Option PyDict) :
    ((∃ p, normalize_letsmesh_event names obs "packets" payload decoded =
        some (obs, "channel_msg_recv", p)) ↔
      (resolve_letsmesh_packet_type payload decoded = some 5 ∧
        optStrTruthy (extract_letsmesh_decoder_text decoded) = true)) ∧
    ((∃ p, normalize_letsmesh_event names obs "packets" payload decoded =
        some (obs, "contact_msg_recv", p)) ↔
      ((resolve_letsmesh_packet_type payload decoded = some 1 ∨
          resolve_letsmesh_packet_type payload decoded = some 2 ∨
          resolve_letsmesh_packet_type payload decoded = some 7) ∧
        optStrTruthy (extract_letsmesh_decoder_text decoded) = true)) ∧
    (optStrTruthy (extract_letsmesh_decoder_text decoded) = false →
      (∃ p, normalize_letsmesh_event names obs "packets" payload decoded =
        some (obs, "letsmesh_packet", p)) ∨
      (∃ p, normalize_letsmesh_event names obs "packets" payload decoded =
        some (obs, "advertisement", p))) ∧
    (∃ et p, normalize_letsmesh_event names obs "packets" payload decoded =
        some (obs, et, p) ∧
      (et = "channel_msg_recv" ∨ et = "contact_msg_recv" ∨ et = "advertisement" ∨
        et = "letsmesh_packet")) := by
  rw [normalize_packets]
  cases hb : build_letsmesh_message_payload names payload decoded with
  | some ep =>
    obtain ⟨hm, hT⟩ := build_msg_inv names payload decoded ep.1 ep.2 hb
    refine ⟨?_, ?_, ?_, ?_⟩
    · constructor
      · rintro ⟨p, hp⟩
        simp only [Option.some.injEq, Prod.mk.injEq] at hp
        have het : ep.1 = "channel_msg_recv" := hp.2.1
        rw [het] at hm
        exact ⟨(msgEventTypeOf_channel_iff _).mp hm, hT⟩
      · rintro ⟨h5, _⟩
        have : msgEventTypeOf (resolve_letsmesh_packet_type payload decoded) =
            some "channel_msg_recv" := (msgEventTypeOf_channel_iff _).mpr h5
        rw [this] at hm
        have het : ep.1 = "channel_msg_recv" := (Option.some.inj hm).symm
        refine ⟨ep.2, ?_⟩
        show some (obs, ep.1, ep.2) = some (obs, "channel_msg_recv", ep.2)
        rw [het]
    · constructor
      · rintro ⟨p, hp⟩
        simp only [Option.some.injEq, Prod.mk.injEq] at hp
        have het : ep.1 = "contact_msg_recv" := hp.2.1
        rw [het] at hm
        exact ⟨(msgEventTypeOf_contact_iff _).mp hm, hT⟩
      · rintro ⟨h127, _⟩
        have : msgEventTypeOf (resolve_letsmesh_packet_type payload decoded) =
            some "contact_msg_recv" := (msgEventTypeOf_contact_iff _).mpr h127
        rw [this] at hm
        have het : ep.1 = "contact_msg_recv" := (Option.some.inj hm).symm
        refine ⟨ep.2, ?_⟩
        show some (obs, ep.1, ep.2) = some (obs, "contact_msg_recv", ep.2)
        rw [het]
    · intro hF
      rw [hT] at hF
      cases hF
    · refine ⟨ep.1, ep.2, rfl, ?_⟩
      rcases msgEventTypeOf_values _ _ hm with h | h
      · exact Or.inl h
      · exact Or.inr (Or.inl h)
  | none =>
    have hnomsg : ∀ et : String,
        msgEventTypeOf (resolve_letsmesh_packet_type payload decoded) = some et →
        optStrTruthy (extract_letsmesh_decoder_text decoded) = true → False := by
      intro et hm hT
      obtain ⟨t, hx, hne⟩ := (optStrTruthy_true_iff _).mp hT
      rw [build_msg_some names payload decoded et t hm hx hne] at hb
      exact Option.noConfusion hb
    cases ha : build_letsmesh_advertisement_payload payload decoded with
    | some adv =>
      refine ⟨?_, ?_, ?_, ?_⟩
      · constructor
        · rintro ⟨p, hp⟩
          simp only [Option.some.injEq, Prod.mk.injEq] at hp
          exact absurd hp.2.1 (by decide)
        · rintro ⟨h5, hT⟩
          exact absurd hT (fun hT' =>
            hnomsg "channel_msg_recv" ((msgEventTypeOf_channel_iff _).mpr h5) hT')
      · constructor
        · rintro ⟨p, hp⟩
          simp only [Option.some.injEq, Prod.mk.injEq] at hp
          exact absurd hp.2.1 (by decide)
        · rintro ⟨h127, hT⟩
          exact absurd hT (fun hT' =>
            hnomsg "contact_msg_recv" ((msgEventTypeOf_contact_iff _).mpr h127) hT')
      · intro _
        exact Or.inr ⟨adv, rfl⟩
      · exact ⟨"advertisement", adv, rfl, Or.inr (Or.inr (Or.inl rfl))⟩
    | none =>
      refine ⟨?_, ?_, ?_, ?_⟩
      · constructor
        · rintro ⟨p, hp⟩
          simp only [Option.some.injEq, Prod.mk.injEq] at hp
          exact absurd hp.2.1 (by decide)
        · rintro ⟨h5, hT⟩
          exact absurd hT (fun hT' =>
            hnomsg "channel_msg_recv" ((msgEventTypeOf_channel_iff _).mpr h5) hT')
      · constructor
        · rintro ⟨p, hp⟩
          simp only [Option.some.injEq, Prod.mk.injEq] at hp
          exact absurd hp.2.1 (by decide)
        · rintro ⟨h127, hT⟩
          exact absurd hT (fun hT' =>
            hnomsg "contact_msg_recv" ((msgEventTypeOf_contact_iff _).mpr h127) hT')
      · intro _
        exact Or.inl ⟨letsmesh_packet_fallback_payload payload decoded, rfl⟩
      · exact ⟨"letsmesh_packet", letsmesh_packet_fallback_payload payload decoded, rfl,
          Or.inr (Or.inr (Or.inr rfl))⟩

/-- A concrete packets-feed payload (from the repository's subscriber test
for decoder-provided text). -/
def samplePacketPayload : PyDict :=
  [("packet_type", .str "5"), ("hash", .str "ABCDEF1234"),
   ("raw", .str "15040791959fd9"), ("SNR", .str "9.0")]

/-- The matching decoder output: payload type 5 with decrypted message text. -/
def samplePacketDecoded : Option PyDict :=
  some [("payloadType", .int 5), ("pathLength", .int 4),
        ("payload", .dict [("decoded", .dict [("channelHash", .str "AA"),
          ("decrypted", .dict [("sender", .str "ABCD1234"),
            ("timestamp", .int 1771695860),
            ("message", .str "decoded hello")])])])]

/-- C1 witness: the concrete type-5 packet with recoverable decrypted text
yields a `channel_msg_recv` event. -/
theorem claim_C1_witness :
    ∃ p, normalize_letsmesh_event [("AA", "test")] "OBS" "packets"
        samplePacketPayload samplePacketDecoded = some ("OBS", "channel_msg_recv", p) :=
  (claim_C1 [("AA", "test")] "OBS" samplePacketPayload samplePacketDecoded).1.mpr
    ⟨by decide, by decide⟩
